import Mathlib

/-!
# Node termination handler: a shallow embedding

Definitions below are translated from the Go sources of the node termination
handler (`termination/gceTerminationHandler.go`, `termination/eviction.go`,
`termination/taint.go`, `termination/handler.go`, `main.go`).  Stateful code is written as explicit state passing;
calls to the cluster API are calls to a client given as a record of functions
on an abstract client state, and every function returns the list of calls it
made, in order.

Conventions.
* `time.Duration` is an `Int` number of nanoseconds; arithmetic on it wraps at
  64 bits (`wrapInt64`).
* `time.Time` is a `Time`: an instant, in nanoseconds, and the rest of the
  representation of the value.
* A Go `error` is `Option Error` (`none` is `nil`).
* A Go slice is a `List`; a nil slice and an empty slice are both `[]`.
-/

namespace Termination

/-! ## Basic types -/

/-- Go `error` values, identified by their message. -/
abbrev Error := String

/-- Two's complement wrap-around of a Go `int64` result. -/
def wrapInt64 (x : Int) : Int :=
  (x + 9223372036854775808) % 18446744073709551616 - 9223372036854775808

/-- Smallest `int64`. -/
def minInt64 : Int := -9223372036854775808

/-- Largest `int64`. -/
def maxInt64 : Int := 9223372036854775807

/-- The constant `time.Second`, in nanoseconds. -/
def Second : Int := 1000000000

/-- The constant `time.Minute`, in nanoseconds. -/
def Minute : Int := 60 * Second

/-- A `time.Time`.  `instant` is the clock reading, in nanoseconds, that `Add`
and `Sub` compute with.  `representation` stands for what the value holds
besides: whether it carries a monotonic clock reading, the offset of the wall
clock from that reading, and the location.  Two values of the same instant can
differ in it; `reflect.DeepEqual` compares the whole value. -/
structure Time where
  instant : Int
  representation : Nat
deriving DecidableEq, Repr

/-- The library method `Time.Add`: the instant moves by `d`, the rest of the
value is kept. -/
def Time.Add (t : Time) (d : Int) : Time :=
  { t with instant := t.instant + d }

/-- The time of the given instant, in the representation number 0. -/
def timeAt (instant : Int) : Time :=
  { instant := instant, representation := 0 }

/-! ## `types.go` -/

/-- The struct `NodeTerminationState`. -/
structure NodeTerminationState where
  NodeName : String
  PendingTermination : Bool
  TerminationTime : Time
  NeedsReboot : Bool
deriving DecidableEq, Repr

/-! ## `gceTerminationHandler.go` -/

/-- Constant `maintenanceEventTerminate`. -/
def maintenanceEventTerminate : String := "TERMINATE_ON_HOST_MAINTENANCE"

/-- Constant `maintenanceEventTrue`. -/
def maintenanceEventTrue : String := "TRUE"

/-- Constant `preemptibleNodeTerminationDuration` (30 seconds). -/
def preemptibleNodeTerminationDuration : Int := 30 * Second

/-- The struct `gceTerminationSource`, without its lock; the values sent on
`updateChannel` are returned by the functions that send them. -/
structure gceTerminationSource where
  needsTerminationHandling : Bool
  state : NodeTerminationState
  regularNodeTerminationDuration : Int
deriving DecidableEq, Repr

/-- The method `storePendingTermination`; `now` is the value of `time.Now()`. -/
def gceTerminationSource.storePendingTermination (g : gceTerminationSource) (now : Time) :
    gceTerminationSource :=
  let st := { g.state with PendingTermination := true }
  let terminationTime := now
  if !st.NeedsReboot then
    { g with state :=
        { st with TerminationTime := terminationTime.Add preemptibleNodeTerminationDuration } }
  else
    { g with state :=
        { st with TerminationTime := terminationTime.Add g.regularNodeTerminationDuration } }

/-- The method `resetPendingTermination`; `now` is the value of `time.Now()`. -/
def gceTerminationSource.resetPendingTermination (g : gceTerminationSource) (now : Time) :
    gceTerminationSource :=
  { g with state := { g.state with PendingTermination := false, TerminationTime := now } }

/-- The method `handleMaintenanceEvents`: the callback given to
`metadata.Subscribe`.  It returns the new source and the snapshots sent on
`updateChannel` (its Go return value is always `nil`). -/
def gceTerminationSource.handleMaintenanceEvents (g : gceTerminationSource) (now : Time)
    (state : String) (exist : Bool) : gceTerminationSource × List NodeTerminationState :=
  if !exist then
    (g, [])
  else if (g.state.NeedsReboot && state == maintenanceEventTerminate) ||
      (!g.state.NeedsReboot && state == maintenanceEventTrue) then
    let g1 := g.storePendingTermination now
    (g1, [g1.state])
  else
    let g1 := g.resetPendingTermination now
    (g1, [g1.state])

/-- The two metadata keys that `WatchState` subscribes to. -/
inductive MetadataKey where
  | maintenanceEvent
  | preempted
deriving DecidableEq, Repr

/-- One callback made by `metadata.Subscribe`: the key it watches, the value
delivered, whether the key exists, and the time of the callback. -/
structure Callback where
  key : MetadataKey
  value : String
  exist : Bool
  now : Time
deriving DecidableEq, Repr

/-- What `WatchState` does with one callback: both subscriptions
(`maintenanceEventSuffix` and `preemptedEventSuffix`) are given the same
function, `g.handleMaintenanceEvents`, which does not receive the key. -/
def gceTerminationSource.deliver (g : gceTerminationSource) (cb : Callback) :
    gceTerminationSource × List NodeTerminationState :=
  match cb.key with
  | MetadataKey.maintenanceEvent => g.handleMaintenanceEvents cb.now cb.value cb.exist
  | MetadataKey.preempted => g.handleMaintenanceEvents cb.now cb.value cb.exist

/-- The source after a sequence of callbacks, oldest first. -/
def gceTerminationSource.deliverAll (g : gceTerminationSource) (cbs : List Callback) :
    gceTerminationSource :=
  cbs.foldl (fun g cb => (g.deliver cb).1) g

/-- The method `GetState`. -/
def gceTerminationSource.GetState (g : gceTerminationSource) : NodeTerminationState :=
  g.state

/-- The most recent value delivered on `key` in a sequence of callbacks
(oldest first), if any. -/
def mostRecentValue (key : MetadataKey) (cbs : List Callback) : Option String :=
  ((cbs.reverse.filter (fun cb => cb.key == key)).head?).map (fun cb => cb.value)

/-- The rule of the specification for `pending_termination`, read on the most
recent value of each key: `(needs_reboot ∧ maintenance-event ==
TERMINATE_ON_HOST_MAINTENANCE) ∨ (¬needs_reboot ∧ preempted == TRUE)`. -/
def specPendingTermination (needsReboot : Bool) (cbs : List Callback) : Bool :=
  (needsReboot &&
      mostRecentValue MetadataKey.maintenanceEvent cbs == some maintenanceEventTerminate) ||
    (!needsReboot && mostRecentValue MetadataKey.preempted cbs == some maintenanceEventTrue)

/-- A regular (non-preemptible) instance with no pending termination. -/
def regularSource : gceTerminationSource :=
  { needsTerminationHandling := true,
    state := { NodeName := "node-1", PendingTermination := false, TerminationTime := timeAt 0,
               NeedsReboot := true },
    regularNodeTerminationDuration := 3600 * Second }

/-- A maintenance notice on `maintenance-event`, then the value `FALSE`
delivered on `preempted`. -/
def noticeThenPreemptedFalse : List Callback :=
  [ { key := MetadataKey.maintenanceEvent, value := "TERMINATE_ON_HOST_MAINTENANCE",
      exist := true, now := timeAt 1000 },
    { key := MetadataKey.preempted, value := "FALSE", exist := true, now := timeAt 2000 } ]

/-! ## `eviction.go` -/

/-- Constant `systemNamespace`. -/
def systemNamespace : String := "kube-system"

/-- Constant `eventReason`. -/
def eventReason : String := "NodeTermination"

/-- The fields of `v1.Pod` that the handler reads. -/
structure Pod where
  Name : String
  Namespace : String
  NodeName : String
deriving DecidableEq, Repr

/-- A Go `map[string]string`, as an association list; `List.lookup` is the map
lookup `v, exists := m[k]` (`none` when `exists` is false). -/
abbrev StringMap := List (String × String)

/-- The result of `client.Pods(ns).Get(name)`: the pod exists, or the error
satisfies `apierrs.IsNotFound`, or there is another error. -/
inductive GetResult where
  | found
  | notFound
  | failed (err : Error)
deriving DecidableEq, Repr

/-- The cluster as the eviction handler uses it (`corev1.CoreV1Interface`
restricted to pods), over an abstract cluster state `σ`.
* `List s node` is `Pods(NamespaceAll).List` with the field selector
  `spec.nodeName = node`;
* `Delete s ns name grace` is `Pods(ns).Delete(name, &DeleteOptions{GracePeriodSeconds: &grace})`;
* `Get s ns name` is `Pods(ns).Get(name)`;
* `pollTicks timeout` is the number of interval ticks that `wait.PollImmediate`
  sees before a timeout of `timeout` nanoseconds, other than zero, fires (real
  time, given by the environment). -/
structure PodClient (σ : Type) where
  List : σ → String → σ × Except Error (List Pod)
  Delete : σ → String → String → Int → σ × Option Error
  Get : σ → String → String → σ × GetResult
  pollTicks : Int → Nat

/-- The calls made by the eviction handler, as recorded in its trace. A
`delete` records the namespace, the name, the grace period in seconds and the
answer of the API server. -/
inductive Call where
  | list (node : String)
  | event (pod : Pod) (reason : String)
  | delete (ns : String) (name : String) (gracePeriodSeconds : Int) (result : Option Error)
  | get (ns : String) (name : String)
deriving DecidableEq, Repr

/-- The struct `podEvictionHandler`; the recorder is the `event` entries of the
trace. -/
structure podEvictionHandler (σ : Type) where
  client : PodClient σ
  node : String
  systemPodGracePeriod : Int

/-- The method `Duration.Seconds` of the Go library:
`float64(d / Second) + float64(d % Second) / 1e9`, with the floating point
operations taken exactly.  On a duration of whole seconds the second summand is
zero and `float64` holds the first exactly, so this is the value of the Go
method; on a duration with a fraction of a second the Go value is the nearest
`float64`, which can differ from this one, and the truncation of a difference of
two such values can then differ by one. -/
def Seconds (d : Int) : ℚ :=
  ((Int.tdiv d Second : Int) : ℚ) + ((Int.tmod d Second : Int) : ℚ) / 1000000000

/-- The Go conversion `int64(x)` of a floating point value within the range of
`int64`: the fraction is discarded (truncation towards zero). -/
def int64OfFloat (x : ℚ) : Int :=
  if 0 ≤ x then ⌊x⌋ else ⌈x⌉

/-- The error `wait.ErrWaitTimeout`. -/
def ErrWaitTimeout : Error := "timed out waiting for the condition"

/-- How far a call has come when it is observed: it has returned its
`error`, or it has not returned and is still polling. -/
inductive Progress where
  | returned (err : Option Error)
  | polling
deriving DecidableEq, Repr

/-- The polls of `wait.PollImmediate`: `condition` runs at once and then once
per tick, until it reports an error (which is returned) or that it is done
(`nil` is returned).  With a timer (`forever = false`) the count is the number
of ticks before the timer fires, and `ErrWaitTimeout` is returned then.
Without a timer (`forever = true`) the polls never stop by themselves: the
count is the number of further polls that are observed, after which the call
is still polling. -/
def pollUntil {σ : Type} (condition : σ → σ × List Call × Bool × Option Error)
    (forever : Bool) : Nat → σ → σ × List Call × Progress
  | count, s =>
    match condition s with
    | (s1, tr, _, some err) => (s1, tr, Progress.returned (some err))
    | (s1, tr, true, none) => (s1, tr, Progress.returned none)
    | (s1, tr, false, none) =>
      match count with
      | 0 =>
        (s1, tr, if forever then Progress.polling else Progress.returned (some ErrWaitTimeout))
      | n + 1 =>
        match pollUntil condition forever n s1 with
        | (s2, tr2, res) => (s2, tr ++ tr2, res)

/-- The library function `wait.PollImmediate(interval, timeout, condition)`: it
starts a timer only when `timeout` is not zero, so a timeout of zero means no
timeout.  `pollTicks` gives the ticks before a timer fires, `fuel` the number
of polls observed of a call that has no timer. -/
def PollImmediate {σ : Type} (pollTicks : Int → Nat) (fuel : Nat) (timeout : Int)
    (condition : σ → σ × List Call × Bool × Option Error) (s : σ) :
    σ × List Call × Progress :=
  if timeout = 0 then pollUntil condition true fuel s
  else pollUntil condition false (pollTicks timeout) s

/-- The method `waitForPodNotFound`. -/
def podEvictionHandler.waitForPodNotFound {σ : Type} (p : podEvictionHandler σ) (fuel : Nat)
    (podName ns : String) (timeout : Int) (s : σ) : σ × List Call × Progress :=
  PollImmediate p.client.pollTicks fuel timeout (fun s =>
      match p.client.Get s ns podName with
      | (s1, GetResult.notFound) => (s1, [Call.get ns podName], true, none)
      | (s1, GetResult.failed err) => (s1, [Call.get ns podName], true, some err)
      | (s1, GetResult.found) => (s1, [Call.get ns podName], false, none)) s

/-- The first loop of `deletePods`: an event and a delete request for each pod,
returning at the first delete request that fails. -/
def podEvictionHandler.deleteLoop {σ : Type} (p : podEvictionHandler σ)
    (gracePeriodSeconds : Int) : List Pod → σ → σ × List Call × Option Error
  | [], s => (s, [], none)
  | pod :: rest, s =>
    match p.client.Delete s pod.Namespace pod.Name gracePeriodSeconds with
    | (s1, some err) =>
      (s1, [Call.event pod eventReason,
            Call.delete pod.Namespace pod.Name gracePeriodSeconds (some err)], some err)
    | (s1, none) =>
      match p.deleteLoop gracePeriodSeconds rest s1 with
      | (s2, tr, res) =>
        (s2, Call.event pod eventReason ::
               Call.delete pod.Namespace pod.Name gracePeriodSeconds none :: tr, res)

/-- The second loop of `deletePods`: wait for each pod to be gone; the error of
a wait is logged and dropped.  The last component tells whether every wait has
returned; the loop does not go past a wait that is still polling. -/
def podEvictionHandler.waitLoop {σ : Type} (p : podEvictionHandler σ) (fuel : Nat)
    (gracePeriodSeconds : Int) : List Pod → σ → σ × List Call × Bool
  | [], s => (s, [], true)
  | pod :: rest, s =>
    match p.waitForPodNotFound fuel pod.Name pod.Namespace
        (wrapInt64 (gracePeriodSeconds * Second)) s with
    | (s1, tr, Progress.polling) => (s1, tr, false)
    | (s1, tr, Progress.returned _) =>
      match p.waitLoop fuel gracePeriodSeconds rest s1 with
      | (s2, tr2, finished) => (s2, tr ++ tr2, finished)

/-- The method `deletePods`. -/
def podEvictionHandler.deletePods {σ : Type} (p : podEvictionHandler σ) (fuel : Nat)
    (pods : List Pod) (gracePeriodSeconds : Int) (s : σ) : σ × List Call × Progress :=
  match p.deleteLoop gracePeriodSeconds pods s with
  | (s1, tr, some err) => (s1, tr, Progress.returned (some err))
  | (s1, tr, none) =>
    match p.waitLoop fuel gracePeriodSeconds pods s1 with
    | (s2, tr2, true) => (s2, tr ++ tr2, Progress.returned none)
    | (s2, tr2, false) => (s2, tr ++ tr2, Progress.polling)

/-- The loop of `EvictPods` that separates the pods: a pod is kept unless
`excludePods[pod.Name]` exists and equals `pod.Namespace`; a kept pod goes to
`systemPods` when its namespace is `systemNamespace`, to `regularPods`
otherwise.  The result is `(systemPods, regularPods)`. -/
def separatePods (excludePods : StringMap) (items : List Pod) : List Pod × List Pod :=
  items.foldl (fun acc pod =>
      match excludePods.lookup pod.Name with
      | some ns =>
        if ns != pod.Namespace then
          if pod.Namespace == systemNamespace then (acc.1 ++ [pod], acc.2)
          else (acc.1, acc.2 ++ [pod])
        else acc
      | none =>
        if pod.Namespace == systemNamespace then (acc.1 ++ [pod], acc.2)
        else (acc.1, acc.2 ++ [pod]))
    ([], [])

/-- The grace period that `EvictPods` gives to regular pods:
`var gracePeriod int64` (zero), set to
`int64(timeout.Seconds() - p.systemPodGracePeriod.Seconds())` when
`timeout >= 2*p.systemPodGracePeriod` (a 64-bit product). -/
def regularGracePeriod (timeout systemPodGracePeriod : Int) : Int :=
  if timeout ≥ wrapInt64 (2 * systemPodGracePeriod) then
    int64OfFloat (Seconds timeout - Seconds systemPodGracePeriod)
  else 0

/-- The grace period that `EvictPods` gives to system pods:
`int64(p.systemPodGracePeriod.Seconds())`. -/
def systemGracePeriod (systemPodGracePeriod : Int) : Int :=
  int64OfFloat (Seconds systemPodGracePeriod)

/-- The method `EvictPods`, observed for `fuel` polls of every wait that has no
timeout: the new cluster state, the calls made, and the returned error (or
that the call is still polling). -/
def podEvictionHandler.EvictPods {σ : Type} (p : podEvictionHandler σ) (fuel : Nat)
    (excludePods : StringMap) (timeout : Int) (s : σ) : σ × List Call × Progress :=
  match p.client.List s p.node with
  | (s1, Except.error err) => (s1, [Call.list p.node], Progress.returned (some err))
  | (s1, Except.ok items) =>
    match p.deletePods fuel (separatePods excludePods items).2
        (regularGracePeriod timeout p.systemPodGracePeriod) s1 with
    | (s2, tr2, Progress.returned (some err)) =>
      (s2, Call.list p.node :: tr2, Progress.returned (some err))
    | (s2, tr2, Progress.polling) => (s2, Call.list p.node :: tr2, Progress.polling)
    | (s2, tr2, Progress.returned none) =>
      match p.deletePods fuel (separatePods excludePods items).1
          (systemGracePeriod p.systemPodGracePeriod) s2 with
      | (s3, tr3, res) => (s3, Call.list p.node :: (tr2 ++ tr3), res)

/-- The delete requests of a trace, in order: namespace, name, grace period,
answer. -/
def deleteRequests : List Call → List (String × String × Int × Option Error)
  | [] => []
  | Call.delete ns name g res :: rest => (ns, name, g, res) :: deleteRequests rest
  | _ :: rest => deleteRequests rest

/-- The identity `(name, namespace)` of a pod. -/
def Pod.identity (pod : Pod) : String × String := (pod.Name, pod.Namespace)

/-- The identities `(name, namespace)` of the pods for which a trace has a
delete request, in order. -/
def deletedPods (tr : List Call) : List (String × String) :=
  (deleteRequests tr).map (fun r => (r.2.1, r.1))

/-- Whether `(name, namespace)` of the pod is an entry of the exclude map. -/
def excluded (excludePods : StringMap) (pod : Pod) : Bool :=
  excludePods.lookup pod.Name == some pod.Namespace

/-- The fake clientset of the tests: the state is the list of pods in the
cluster; a delete removes the pod and fails when there is none; every wait
sees one tick before its timeout. -/
def fakeClientset : PodClient (List Pod) where
  List := fun s node => (s, Except.ok (s.filter (fun q => q.NodeName == node)))
  Delete := fun s ns name _ =>
    if s.any (fun q => q.Namespace == ns && q.Name == name) then
      (s.filter (fun q => !(q.Namespace == ns && q.Name == name)), none)
    else (s, some "not found")
  Get := fun s ns name =>
    (s, if s.any (fun q => q.Namespace == ns && q.Name == name) then GetResult.found
        else GetResult.notFound)
  pollTicks := fun _ => 1

/-- The pods of `TestEvictions`. -/
def testPods : List Pod :=
  [ { Name := "foo", Namespace := "default", NodeName := "localhost" },
    { Name := "bar", Namespace := "kube-system", NodeName := "localhost" },
    { Name := "baz", Namespace := "kube-system", NodeName := "localhost" } ]

/-- An eviction handler on the fake clientset for node `localhost`. -/
def testHandler (systemPodGracePeriod : Int) : podEvictionHandler (List Pod) :=
  { client := fakeClientset, node := "localhost", systemPodGracePeriod := systemPodGracePeriod }

/-- The delete request for a pod with a grace period, as the API server
accepts it. -/
def acceptedRequest (g : Int) (pod : Pod) : String × String × Int × Option Error :=
  (pod.Namespace, pod.Name, g, none)

/-- The delete request for a pod with a grace period, as the API server
rejects it with `err`. -/
def rejectedRequest (g : Int) (pod : Pod) (err : Error) : String × String × Int × Option Error :=
  (pod.Namespace, pod.Name, g, some err)

/-- The exclude map of `TestEvictions`: `baz` in `kube-system`. -/
def testExclude : StringMap := [("baz", "kube-system")]

/-- A clientset like `fakeClientset` whose API server rejects every delete
request for a pod named `foo`. -/
def rejectingClientset : PodClient (List Pod) where
  List := fakeClientset.List
  Delete := fun s ns name g =>
    if name == "foo" then (s, some "forbidden") else fakeClientset.Delete s ns name g
  Get := fakeClientset.Get
  pollTicks := fakeClientset.pollTicks

/-- An eviction handler on `rejectingClientset` for node `localhost`. -/
def rejectingHandler (systemPodGracePeriod : Int) : podEvictionHandler (List Pod) :=
  { client := rejectingClientset, node := "localhost",
    systemPodGracePeriod := systemPodGracePeriod }

/-! ## `taint.go` -/

/-- The struct `v1.Taint` of the Kubernetes API: key, value, effect and the
optional time at which the taint was added. -/
structure Taint where
  Key : String
  Value : String
  Effect : String
  TimeAdded : Option Int
deriving DecidableEq, Repr

/-- The library method `(*v1.Taint).MatchTaint`: two taints match when they
have the same key and the same effect. -/
def Taint.MatchTaint (t taintToMatch : Taint) : Bool :=
  t.Key == taintToMatch.Key && t.Effect == taintToMatch.Effect

/-- The library function `helper.Semantic.DeepEqual` on two taints: all fields
are equal. -/
def semanticDeepEqual (a b : Taint) : Bool :=
  decide (a = b)

/-- The fields of `v1.Node` that the handler reads or writes. `Annotations` is
`none` for a nil map. -/
structure Node where
  Name : String
  Annotations : Option StringMap
  Taints : List Taint
deriving DecidableEq, Repr

/-- The Go assignment `m[k] = v` on a non-nil map. -/
def mapAssign (m : StringMap) (k v : String) : StringMap :=
  if m.any (fun e => e.1 == k) then m.map (fun e => if e.1 == k then (k, v) else e)
  else m ++ [(k, v)]

/-- Constant `taintReason`. -/
def taintReason : String := "ImpendingNodeTermination"

/-- Constant `untaintReason`. -/
def untaintReason : String := "NoImpendingNodeTermination"

/-- Constant `v1.EventTypeWarning`. -/
def EventTypeWarning : String := "Warning"

/-- Constant `v1.EventTypeNormal`. -/
def EventTypeNormal : String := "Normal"

/-- The cluster as the taint handler uses it: `Nodes().Get(name)` and
`Nodes().Update(node)`, over an abstract cluster state `σ`. -/
structure NodeClient (σ : Type) where
  Get : σ → String → σ × Except Error Node
  Update : σ → Node → σ × Option Error

/-- The calls made by the taint handler, as recorded in its trace: the node
read, the node written with the answer of the API server, and the event
recorded on the node. -/
inductive NodeCall where
  | get (name : String)
  | update (node : Node) (result : Option Error)
  | event (node : Node) (eventtype : String) (reason : String)
deriving DecidableEq, Repr

/-- How a method ends: it returns its `error`, or the Go runtime panics. -/
inductive Outcome where
  | returned (err : Option Error)
  | panicked (msg : String)
deriving DecidableEq, Repr

/-- The struct `nodeTaintHandler`; the recorder is the `event` entries of the
trace. -/
structure nodeTaintHandler (σ : Type) where
  taint : Taint
  annotation : String
  node : String
  client : NodeClient σ

/-- The loop of `addOrUpdateTaint` over `nodeTaints`, with its variables
`newTaints` and `updated`; `none` is the `return newNode, false` inside the
loop. -/
def addOrUpdateLoop (taint : Taint) : List Taint → List Taint → Bool → Option (List Taint × Bool)
  | [], newTaints, updated => some (newTaints, updated)
  | x :: rest, newTaints, updated =>
    if taint.MatchTaint x then
      if semanticDeepEqual taint x then none
      else addOrUpdateLoop taint rest (newTaints ++ [taint]) true
    else addOrUpdateLoop taint rest (newTaints ++ [x]) updated

/-- The function `addOrUpdateTaint`. -/
def addOrUpdateTaint (node : Node) (taint : Taint) : Node × Bool :=
  let newNode := node
  match addOrUpdateLoop taint newNode.Taints [] false with
  | none => (newNode, false)
  | some (newTaints, updated) =>
    if !updated then ({ newNode with Taints := newTaints ++ [taint] }, true)
    else ({ newNode with Taints := newTaints }, true)

/-- The function `taintExists`. -/
def taintExists : List Taint → Taint → Bool
  | [], _ => false
  | taint :: rest, taintToFind =>
    if taint.MatchTaint taintToFind then true else taintExists rest taintToFind

/-- The loop of `deleteTaint`, with its variables `newTaints` and `deleted`. -/
def deleteTaintLoop (taintToDelete : Taint) : List Taint → List Taint → Bool → List Taint × Bool
  | [], newTaints, deleted => (newTaints, deleted)
  | x :: rest, newTaints, deleted =>
    if taintToDelete.MatchTaint x then deleteTaintLoop taintToDelete rest newTaints true
    else deleteTaintLoop taintToDelete rest (newTaints ++ [x]) deleted

/-- The function `deleteTaint`. -/
def deleteTaint (taints : List Taint) (taintToDelete : Taint) : List Taint × Bool :=
  deleteTaintLoop taintToDelete taints [] false

/-- The function `removeTaint`. -/
def removeTaint (node : Node) (taint : Taint) : Node × Bool :=
  let newNode := node
  let nodeTaints := newNode.Taints
  if nodeTaints.length == 0 then (newNode, false)
  else if !taintExists nodeTaints taint then (newNode, false)
  else ({ newNode with Taints := (deleteTaint nodeTaints taint).1 }, true)

/-- The method `ApplyTaint`: the new cluster state, the calls made, and how the
method ends. -/
def nodeTaintHandler.ApplyTaint {σ : Type} (n : nodeTaintHandler σ) (s : σ) :
    σ × List NodeCall × Outcome :=
  match n.client.Get s n.node with
  | (s1, Except.error err) => (s1, [NodeCall.get n.node], Outcome.returned (some err))
  | (s1, Except.ok node) =>
    if n.annotation != "" then
      match node.Annotations with
      | none => (s1, [NodeCall.get n.node], Outcome.panicked "assignment to entry in nil map")
      | some m =>
        let node := { node with Annotations := some (mapAssign m n.annotation "true") }
        match n.client.Update s1 node with
        | (s2, some err) =>
          (s2, [NodeCall.get n.node, NodeCall.update node (some err)],
            Outcome.returned (some err))
        | (s2, none) =>
          (s2, [NodeCall.get n.node, NodeCall.update node none,
                NodeCall.event node EventTypeWarning taintReason], Outcome.returned none)
    else
      match addOrUpdateTaint node n.taint with
      | (node, true) =>
        match n.client.Update s1 node with
        | (s2, some err) =>
          (s2, [NodeCall.get n.node, NodeCall.update node (some err)],
            Outcome.returned (some err))
        | (s2, none) =>
          (s2, [NodeCall.get n.node, NodeCall.update node none,
                NodeCall.event node EventTypeWarning taintReason], Outcome.returned none)
      | (_, false) => (s1, [NodeCall.get n.node], Outcome.returned none)

/-- The method `RemoveTaint`: the new cluster state, the calls made, and how
the method ends. -/
def nodeTaintHandler.RemoveTaint {σ : Type} (n : nodeTaintHandler σ) (s : σ) :
    σ × List NodeCall × Outcome :=
  match n.client.Get s n.node with
  | (s1, Except.error err) => (s1, [NodeCall.get n.node], Outcome.returned (some err))
  | (s1, Except.ok node) =>
    if n.annotation != "" then
      match node.Annotations with
      | none => (s1, [NodeCall.get n.node], Outcome.panicked "assignment to entry in nil map")
      | some m =>
        let node := { node with Annotations := some (mapAssign m n.annotation "false") }
        match n.client.Update s1 node with
        | (s2, some err) =>
          (s2, [NodeCall.get n.node, NodeCall.update node (some err)],
            Outcome.returned (some err))
        | (s2, none) =>
          (s2, [NodeCall.get n.node, NodeCall.update node none,
                NodeCall.event node EventTypeNormal untaintReason], Outcome.returned none)
    else
      match removeTaint node n.taint with
      | (node, true) =>
        match n.client.Update s1 node with
        | (s2, some err) =>
          (s2, [NodeCall.get n.node, NodeCall.update node (some err)],
            Outcome.returned (some err))
        | (s2, none) =>
          (s2, [NodeCall.get n.node, NodeCall.update node none,
                NodeCall.event node EventTypeNormal untaintReason], Outcome.returned none)
      | (_, false) => (s1, [NodeCall.get n.node], Outcome.returned none)

/-- The number of events in a trace of the taint handler. -/
def countEvents : List NodeCall → Nat
  | [] => 0
  | NodeCall.event _ _ _ :: rest => countEvents rest + 1
  | _ :: rest => countEvents rest

/-- The number of node writes in a trace of the taint handler. -/
def countUpdates : List NodeCall → Nat
  | [] => 0
  | NodeCall.update _ _ :: rest => countUpdates rest + 1
  | _ :: rest => countUpdates rest

/-- A cluster that holds one node: `Get` answers with it (and fails for
another name), `Update` stores the node it is given. -/
def fakeNodeClient : NodeClient Node where
  Get := fun s name => if s.Name == name then (s, Except.ok s) else (s, Except.error "not found")
  Update := fun _ node => (node, none)

/-- The taint of the example in the help of the `--taint` flag, with effect
`NoSchedule`. -/
def exampleTaint : Taint :=
  { Key := "cloud.google.com/impending-node-termination", Value := "", Effect := "NoSchedule",
    TimeAdded := none }

/-- A taint with the key and effect of `exampleTaint` and another value. -/
def staleTaint : Taint :=
  { Key := "cloud.google.com/impending-node-termination", Value := "old",
    Effect := "NoSchedule", TimeAdded := none }

/-- A taint with another key. -/
def otherTaint : Taint :=
  { Key := "dedicated", Value := "gpu", Effect := "NoSchedule", TimeAdded := none }

/-- A node with the given annotations and taints. -/
def exampleNode (annotations : Option StringMap) (taints : List Taint) : Node :=
  { Name := "node-1", Annotations := annotations, Taints := taints }

/-- A taint handler on `fakeNodeClient` with the taint backend. -/
def taintBackend : nodeTaintHandler Node :=
  { taint := exampleTaint, annotation := "", node := "node-1", client := fakeNodeClient }

/-- A taint handler on `fakeNodeClient` with the annotation backend. -/
def annotationBackend : nodeTaintHandler Node :=
  { taint := exampleTaint, annotation := "impending-termination", node := "node-1",
    client := fakeNodeClient }

/-- A clientset that accepts every delete request but whose pods never go
away: every `Get` is answered with `answer`. -/
def stuckClientset (answer : GetResult) : PodClient (List Pod) where
  List := fakeClientset.List
  Delete := fun s _ _ _ => (s, none)
  Get := fun s _ _ => (s, answer)
  pollTicks := fun _ => 1

/-- An eviction handler on `stuckClientset` for node `localhost`. -/
def stuckHandler (answer : GetResult) (systemPodGracePeriod : Int) :
    podEvictionHandler (List Pod) :=
  { client := stuckClientset answer, node := "localhost",
    systemPodGracePeriod := systemPodGracePeriod }

/-! ## `handler.go` -/

/-- The interface `NodeTaintHandler`, over an abstract state `σ` of the world:
each method returns the new state and its `error`. -/
structure NodeTaintHandler (σ : Type) where
  ApplyTaint : σ → σ × Option Error
  RemoveTaint : σ → σ × Option Error

/-- The interface `PodEvictionHandler`, for an implementation whose calls
return. -/
structure PodEvictionHandler (σ : Type) where
  EvictPods : StringMap → Int → σ → σ × Option Error

/-- The interface `NodeTerminationSource`, as the handler sees it: the answer
of `GetState()` and the snapshots received, in order, from the channel of
`WatchState()` until it is closed. -/
structure NodeTerminationSource where
  GetState : NodeTerminationState
  WatchState : List NodeTerminationState

/-- What the handler uses of the operating system: the clock `time.Now()`, the
pause `time.Sleep` before retry number `i` of `wait.ExponentialBackoff`, and
the system calls `syscall.Sync()` and `syscall.Reboot(LINUX_REBOOT_CMD_RESTART2)`
(the latter with the error it returns when it returns). -/
structure System (σ : Type) where
  Now : σ → Time
  Sleep : Nat → σ → σ
  Sync : σ → σ
  Reboot : σ → σ × Option Error

/-- The actions of the handler, as recorded in its trace, each with the error
it returned. -/
inductive Action where
  | removeTaint (result : Option Error)
  | applyTaint (result : Option Error)
  | evictPods (excludePods : StringMap) (timeout : Int) (result : Option Error)
  | sync
  | reboot (result : Option Error)
deriving DecidableEq, Repr

/-- The struct `nodeTerminationHandler`, with the operating system it runs
on. -/
structure nodeTerminationHandler (σ : Type) where
  currentNodeState : NodeTerminationState
  taintHandler : NodeTaintHandler σ
  podEvictionHandler : PodEvictionHandler σ
  terminationSource : NodeTerminationSource
  excludePods : StringMap
  system : System σ

/-- The duration that the library method `Time.Sub` returns for the instants
`t` and `u`: `t - u`, or the largest (smallest) `time.Duration` when `t - u` is
above (below) the range of `time.Duration`. -/
def TimeSub (t u : Int) : Int :=
  if t - u > maxInt64 then maxInt64
  else if t - u < minInt64 then minInt64
  else t - u

/-- The library method `Time.Sub` on two times: the duration between their
instants, within the range of `time.Duration`. -/
def Time.Sub (t u : Time) : Int :=
  TimeSub t.instant u.instant

/-- The timeout that `processNodeState` computes before it applies the taint:
`timeout := TerminationTime.Sub(time.Now())`, and
`timeout = timeout - time.Minute` when `timeout.Seconds() >= 120`. -/
def evictionTimeout (terminationTime now : Time) : Int :=
  let timeout := terminationTime.Sub now
  if Seconds timeout ≥ 120 then wrapInt64 (timeout - Minute) else timeout

/-- The method `rebootNode`. -/
def nodeTerminationHandler.rebootNode {σ : Type} (n : nodeTerminationHandler σ) (s : σ) :
    σ × List Action × Option Error :=
  match n.system.Reboot (n.system.Sync s) with
  | (s1, res) => (s1, [Action.sync, Action.reboot res], res)

/-- The method `processNodeState`: the new state of the world, the actions
taken, and the returned error. -/
def nodeTerminationHandler.processNodeState {σ : Type} (n : nodeTerminationHandler σ) (s : σ) :
    σ × List Action × Option Error :=
  if !n.currentNodeState.PendingTermination then
    match n.taintHandler.RemoveTaint s with
    | (s1, res) => (s1, [Action.removeTaint res], res)
  else
    match n.taintHandler.ApplyTaint s with
    | (s1, some err) => (s1, [Action.applyTaint (some err)], some err)
    | (s1, none) =>
      match n.podEvictionHandler.EvictPods n.excludePods
          (evictionTimeout n.currentNodeState.TerminationTime (n.system.Now s)) s1 with
      | (s2, some err) =>
        (s2, [Action.applyTaint none,
              Action.evictPods n.excludePods
                (evictionTimeout n.currentNodeState.TerminationTime (n.system.Now s))
                (some err)], some err)
      | (s2, none) =>
        if n.currentNodeState.NeedsReboot then
          match n.rebootNode s2 with
          | (s3, tr, res) =>
            (s3, Action.applyTaint none ::
                 Action.evictPods n.excludePods
                   (evictionTimeout n.currentNodeState.TerminationTime (n.system.Now s)) none ::
                 tr, res)
        else
          (s2, [Action.applyTaint none,
                Action.evictPods n.excludePods
                  (evictionTimeout n.currentNodeState.TerminationTime (n.system.Now s)) none],
            none)

/-- The library function `wait.ExponentialBackoff` with `steps` attempts left,
at attempt number `i`: a pause before every attempt but the first, then
`condition`; it returns when `condition` reports an error or that it is done,
and `ErrWaitTimeout` when no attempt is left. -/
def ExponentialBackoff {σ : Type} (sleep : Nat → σ → σ)
    (condition : σ → σ × List Action × Bool × Option Error) :
    Nat → Nat → σ → σ × List Action × Option Error
  | 0, _, s => (s, [], some ErrWaitTimeout)
  | steps + 1, i, s =>
    match condition (if i != 0 then sleep i s else s) with
    | (s1, tr, _, some err) => (s1, tr, some err)
    | (s1, tr, true, none) => (s1, tr, none)
    | (s1, tr, false, none) =>
      match ExponentialBackoff sleep condition steps (i + 1) s1 with
      | (s2, tr2, res) => (s2, tr ++ tr2, res)

/-- The body of the loop of `Start` for one snapshot `state` received from the
channel: nothing when `reflect.DeepEqual(state, n.currentNodeState)` (equality
of the four fields, the termination time compared as a whole value); otherwise
`n.currentNodeState = state` and `processNodeState` under
`wait.ExponentialBackoff` with `Steps: 10`, an error of `processNodeState` being
logged and turned into `(false, nil)`. -/
def nodeTerminationHandler.handleUpdate {σ : Type} (n : nodeTerminationHandler σ)
    (state : NodeTerminationState) (s : σ) :
    nodeTerminationHandler σ × σ × List Action × Option Error :=
  if state ≠ n.currentNodeState then
    match ExponentialBackoff n.system.Sleep (fun s =>
        match ({ n with currentNodeState := state }).processNodeState s with
        | (s1, tr, some _) => (s1, tr, false, none)
        | (s1, tr, none) => (s1, tr, true, none)) 10 0 s with
    | (s1, tr, res) => ({ n with currentNodeState := state }, s1, tr, res)
  else (n, s, [], none)

/-- The loop of `Start` over the snapshots received from the channel. -/
def nodeTerminationHandler.watchLoop {σ : Type} (n : nodeTerminationHandler σ) :
    List NodeTerminationState → σ → nodeTerminationHandler σ × σ × List Action × Option Error
  | [], s => (n, s, [], none)
  | state :: rest, s =>
    match n.handleUpdate state s with
    | (n1, s1, tr, some err) => (n1, s1, tr, some err)
    | (n1, s1, tr, none) =>
      match n1.watchLoop rest s1 with
      | (n2, s2, tr2, res) => (n2, s2, tr ++ tr2, res)

/-- The method `Start`. -/
def nodeTerminationHandler.Start {σ : Type} (n : nodeTerminationHandler σ) (s : σ) :
    nodeTerminationHandler σ × σ × List Action × Option Error :=
  match ({ n with currentNodeState := n.terminationSource.GetState }).processNodeState s with
  | (s1, tr, some err) =>
    ({ n with currentNodeState := n.terminationSource.GetState }, s1, tr, some err)
  | (s1, tr, none) =>
    match ({ n with currentNodeState := n.terminationSource.GetState }).watchLoop
        n.terminationSource.WatchState s1 with
    | (n2, s2, tr2, res) => (n2, s2, tr ++ tr2, res)

/-! ## `main.go` -/

/-- The pieces of a list of characters between the occurrences of `sep`; a
list without `sep` is its own single piece, and so is the empty list. -/
def splitChars (sep : Char) : List Char → List (List Char)
  | [] => [[]]
  | c :: cs =>
    if c = sep then [] :: splitChars sep cs
    else
      match splitChars sep cs with
      | [] => [[c]]
      | piece :: pieces => (c :: piece) :: pieces

/-- The library function `strings.Split(s, sep)` for a separator of one
character. -/
def Split (s : String) (sep : Char) : List String :=
  (splitChars sep s.data).map String.mk

/-- The loop of `processExcludePods` over the elements of
`strings.Split(*excludePodsVar, ",")`, with its variable `ret`. -/
def processExcludePodsLoop (excludePodsVar : String) :
    List String → StringMap → Except Error StringMap
  | [], ret => Except.ok ret
  | p :: rest, ret =>
    match Split p ':' with
    | [name, ns] => processExcludePodsLoop excludePodsVar rest (mapAssign ret name ns)
    | _ =>
      Except.error ("Invalid value specified for --exclude-pods flag - " ++ excludePodsVar)

/-- The function `processExcludePods`, given the value of the flag
`--exclude-pods`. -/
def processExcludePods (excludePodsVar : String) : Except Error StringMap :=
  processExcludePodsLoop excludePodsVar (Split excludePodsVar ',') []

/-- The default value of the flag `--exclude-pods`. -/
def excludePodsDefault : String := ""

/-- Whether a parse of the flag succeeded. -/
def parseSucceeded (r : Except Error StringMap) : Bool :=
  match r with
  | Except.ok _ => true
  | Except.error _ => false

/-- The flag value that lists the given `(name, namespace)` tuples, in order:
tuples `name:namespace` separated by commas. -/
def renderFlag : List (String × String) → String
  | [] => ""
  | [p] => p.1 ++ ":" ++ p.2
  | p :: q :: rest => p.1 ++ ":" ++ p.2 ++ "," ++ renderFlag (q :: rest)

/-- A tuple of the flag is well formed when neither its name nor its namespace
contains a comma or a colon. -/
def wellFormed (p : String × String) : Prop :=
  ',' ∉ p.1.data ∧ ':' ∉ p.1.data ∧ ',' ∉ p.2.data ∧ ':' ∉ p.2.data

/-! ## Reference definitions and examples for the handler -/

/-- The reference for `addOrUpdateTaint` on a taint list `L` and a taint `t`:
when `L` contains `t`, `L` unchanged and `updated = false`; otherwise
`updated = true` and `L` with every taint that has the key and effect of `t`
replaced by `t`, followed by `t` exactly when no taint of `L` has its key and
effect. -/
def addOrUpdateTaintReference (L : List Taint) (t : Taint) : List Taint × Bool :=
  if t ∈ L then (L, false)
  else
    (L.map (fun x => if x.Key = t.Key ∧ x.Effect = t.Effect then t else x) ++
       (if ∃ x ∈ L, x.Key = t.Key ∧ x.Effect = t.Effect then [] else [t]),
     true)

/-- A world for the examples: a clock and the name of the action that fails,
if any. -/
structure ExampleWorld where
  clock : Int
  failing : Option String
deriving DecidableEq, Repr

/-- The answer of an action of the example world. -/
def ExampleWorld.answer (w : ExampleWorld) (action : String) : ExampleWorld × Option Error :=
  (w, if w.failing = some action then some (action ++ " failed") else none)

/-- A handler on the example world with the given current state. -/
def exampleHandler (state : NodeTerminationState) (updates : List NodeTerminationState) :
    nodeTerminationHandler ExampleWorld :=
  { currentNodeState := state,
    taintHandler := { ApplyTaint := fun w => w.answer "apply",
                      RemoveTaint := fun w => w.answer "remove" },
    podEvictionHandler := { EvictPods := fun _ _ w => w.answer "evict" },
    terminationSource := { GetState := state, WatchState := updates },
    excludePods := testExclude,
    system := { Now := fun w => timeAt w.clock,
                Sleep := fun _ w => { w with clock := w.clock + Second },
                Sync := fun w => w,
                Reboot := fun w => w.answer "reboot" } }

/-- A snapshot of a regular instance (`NeedsReboot = true`). -/
def regularState (pending : Bool) (terminationTime : Int) : NodeTerminationState :=
  { NodeName := "node-1", PendingTermination := pending,
    TerminationTime := timeAt terminationTime,
    NeedsReboot := true }

/-- A snapshot of a preemptible instance (`NeedsReboot = false`). -/
def preemptibleState (pending : Bool) (terminationTime : Int) : NodeTerminationState :=
  { NodeName := "node-1", PendingTermination := pending,
    TerminationTime := timeAt terminationTime,
    NeedsReboot := false }

/-- The rendering `name:namespace` of one tuple of the flag. -/
def renderTuple (p : String × String) : String :=
  p.1 ++ ":" ++ p.2

/-- The map that `processExcludePods` builds from a list of parsed tuples:
one assignment `ret[name] = namespace` per tuple, in order. -/
def assignAll (ret : StringMap) (pairs : List (String × String)) : StringMap :=
  pairs.foldl (fun m p => mapAssign m p.1 p.2) ret

/-- Two pods named `foo` on the local node, in the namespaces `a` and `b`. -/
def sameNamePods : List Pod :=
  [ { Name := "foo", Namespace := "a", NodeName := "localhost" },
    { Name := "foo", Namespace := "b", NodeName := "localhost" } ]

/-- The snapshot `state` with its termination time in another representation
of the same instant. -/
def otherRepresentation (state : NodeTerminationState) : NodeTerminationState :=
  { state with
    TerminationTime := { state.TerminationTime with
      representation := state.TerminationTime.representation + 1 } }

/-! ## Lemmas -/

theorem storePendingTermination_state (g : gceTerminationSource) (now : Time) :
    (g.storePendingTermination now).state.PendingTermination = true ∧
    (g.storePendingTermination now).state.NeedsReboot = g.state.NeedsReboot := by
  unfold gceTerminationSource.storePendingTermination
  cases h : g.state.NeedsReboot <;> simp [h]

theorem resetPendingTermination_state (g : gceTerminationSource) (now : Time) :
    (g.resetPendingTermination now).state.PendingTermination = false ∧
    (g.resetPendingTermination now).state.NeedsReboot = g.state.NeedsReboot := by
  simp [gceTerminationSource.resetPendingTermination]

/-- What one callback does to `PendingTermination`: when the key exists, the
flag becomes the rule applied to the delivered value, whichever key the value
came from; when the key does not exist, the source is unchanged. -/
theorem deliver_pendingTermination (g : gceTerminationSource) (cb : Callback) :
    (cb.exist = true →
      (g.deliver cb).1.state.PendingTermination
        = ((g.state.NeedsReboot && cb.value == maintenanceEventTerminate) ||
           (!g.state.NeedsReboot && cb.value == maintenanceEventTrue))) ∧
    (cb.exist = false → (g.deliver cb).1 = g) ∧
    (g.deliver cb).1.state.NeedsReboot = g.state.NeedsReboot := by
  have hd : g.deliver cb = g.handleMaintenanceEvents cb.now cb.value cb.exist := by
    unfold gceTerminationSource.deliver
    cases cb.key <;> rfl
  rw [hd]
  unfold gceTerminationSource.handleMaintenanceEvents
  cases hex : cb.exist
  · simp
  · cases hrule : ((g.state.NeedsReboot && cb.value == maintenanceEventTerminate) ||
        (!g.state.NeedsReboot && cb.value == maintenanceEventTrue))
    · simp only [hrule]
      simp [resetPendingTermination_state]
    · simp only [hrule]
      simp [storePendingTermination_state]

theorem separatePods_foldl (E : StringMap) (items : List Pod) (acc : List Pod × List Pod) :
    items.foldl (fun acc pod =>
      match E.lookup pod.Name with
      | some ns =>
        if ns != pod.Namespace then
          if pod.Namespace == systemNamespace then (acc.1 ++ [pod], acc.2)
          else (acc.1, acc.2 ++ [pod])
        else acc
      | none =>
        if pod.Namespace == systemNamespace then (acc.1 ++ [pod], acc.2)
        else (acc.1, acc.2 ++ [pod])) acc
    = (acc.1 ++ items.filter (fun p => !excluded E p && p.Namespace == systemNamespace),
       acc.2 ++ items.filter (fun p => !excluded E p && !(p.Namespace == systemNamespace))) := by
  induction items generalizing acc with
  | nil => simp
  | cons pod rest ih =>
    rw [List.foldl_cons, ih]
    cases hl : E.lookup pod.Name with
    | none =>
      by_cases hs : pod.Namespace = systemNamespace
      · simp [excluded, hl, hs, List.filter_cons]
      · simp [excluded, hl, hs, List.filter_cons]
    | some ns =>
      by_cases hn : ns = pod.Namespace
      · simp [excluded, hl, hn, List.filter_cons]
      · by_cases hs : pod.Namespace = systemNamespace
        · have hn' : ¬ ns = systemNamespace := hs ▸ hn
          simp [excluded, hl, hn', hs, List.filter_cons]
        · simp [excluded, hl, hn, hs, List.filter_cons]

theorem separatePods_eq (E : StringMap) (items : List Pod) :
    separatePods E items
      = (items.filter (fun p => !excluded E p && p.Namespace == systemNamespace),
         items.filter (fun p => !excluded E p && !(p.Namespace == systemNamespace))) := by
  unfold separatePods
  rw [separatePods_foldl]
  simp

theorem deleteRequests_append (a b : List Call) :
    deleteRequests (a ++ b) = deleteRequests a ++ deleteRequests b := by
  induction a with
  | nil => simp [deleteRequests]
  | cons c rest ih => cases c <;> simp [deleteRequests, ih]

theorem pollUntil_deleteRequests {σ : Type}
    (condition : σ → σ × List Call × Bool × Option Error)
    (hc : ∀ s, deleteRequests (condition s).2.1 = []) (forever : Bool) (count : Nat) (s : σ) :
    deleteRequests (pollUntil condition forever count s).2.1 = [] := by
  induction count generalizing s with
  | zero =>
    have h := hc s
    unfold pollUntil
    rcases hcs : condition s with ⟨s1, tr, done, err⟩
    rw [hcs] at h
    cases err <;> cases done <;> simpa using h
  | succ n ih =>
    have h := hc s
    unfold pollUntil
    rcases hcs : condition s with ⟨s1, tr, done, err⟩
    rw [hcs] at h
    cases err with
    | some e => simpa using h
    | none =>
      cases done with
      | true => simpa using h
      | false =>
        have h2 := ih s1
        rcases hp : pollUntil condition forever n s1 with ⟨s2, tr2, res⟩
        rw [hp] at h2
        simp only at h h2
        simp [hp, deleteRequests_append, h, h2]

theorem waitForPodNotFound_deleteRequests {σ : Type} (p : podEvictionHandler σ) (fuel : Nat)
    (podName ns : String) (timeout : Int) (s : σ) :
    deleteRequests (p.waitForPodNotFound fuel podName ns timeout s).2.1 = [] := by
  have hc : ∀ s, deleteRequests ((fun s =>
      match p.client.Get s ns podName with
      | (s1, GetResult.notFound) =>
        ((s1, [Call.get ns podName], true, none) : σ × List Call × Bool × Option Error)
      | (s1, GetResult.failed err) => (s1, [Call.get ns podName], true, some err)
      | (s1, GetResult.found) => (s1, [Call.get ns podName], false, none)) s).2.1 = [] := by
    intro s
    rcases hg : p.client.Get s ns podName with ⟨s1, r⟩
    cases r <;> simp [hg, deleteRequests]
  unfold podEvictionHandler.waitForPodNotFound PollImmediate
  split
  · exact pollUntil_deleteRequests _ hc true fuel s
  · exact pollUntil_deleteRequests _ hc false _ s

theorem waitLoop_deleteRequests {σ : Type} (p : podEvictionHandler σ) (fuel : Nat) (g : Int)
    (pods : List Pod) (s : σ) :
    deleteRequests (p.waitLoop fuel g pods s).2.1 = [] := by
  induction pods generalizing s with
  | nil => simp [podEvictionHandler.waitLoop, deleteRequests]
  | cons pod rest ih =>
    unfold podEvictionHandler.waitLoop
    have h1 := waitForPodNotFound_deleteRequests p fuel pod.Name pod.Namespace
      (wrapInt64 (g * Second)) s
    rcases hw : p.waitForPodNotFound fuel pod.Name pod.Namespace (wrapInt64 (g * Second)) s
      with ⟨s1, tr, res⟩
    rw [hw] at h1
    cases res with
    | polling => simpa using h1
    | returned e =>
      have h2 := ih s1
      rcases hl : p.waitLoop fuel g rest s1 with ⟨s2, tr2, fin⟩
      rw [hl] at h2
      simp only at h1 h2
      simp [hl, deleteRequests_append, h1, h2]

theorem deleteLoop_ok {σ : Type} (p : podEvictionHandler σ) (g : Int) (pods : List Pod) (s : σ)
    (h : (p.deleteLoop g pods s).2.2 = none) :
    deleteRequests (p.deleteLoop g pods s).2.1 = pods.map (acceptedRequest g) := by
  induction pods generalizing s with
  | nil => simp [podEvictionHandler.deleteLoop, deleteRequests]
  | cons pod rest ih =>
    unfold podEvictionHandler.deleteLoop at h ⊢
    rcases hd : p.client.Delete s pod.Namespace pod.Name g with ⟨s1, res⟩
    rw [hd] at h
    cases res with
    | some e => simp at h
    | none =>
      simp only at h ⊢
      rcases hl : p.deleteLoop g rest s1 with ⟨s2, tr, r⟩
      rw [hl] at h
      have h2 := ih s1
      rw [hl] at h2
      simp only at h
      simp [deleteRequests, acceptedRequest, h2 h]

theorem deleteLoop_err {σ : Type} (p : podEvictionHandler σ) (g : Int) (pods : List Pod) (s : σ)
    (err : Error) (h : (p.deleteLoop g pods s).2.2 = some err) :
    ∃ pre pod post, pods = pre ++ pod :: post ∧
      deleteRequests (p.deleteLoop g pods s).2.1
        = pre.map (acceptedRequest g) ++ [rejectedRequest g pod err] := by
  induction pods generalizing s with
  | nil => simp [podEvictionHandler.deleteLoop] at h
  | cons pod rest ih =>
    unfold podEvictionHandler.deleteLoop at h ⊢
    rcases hd : p.client.Delete s pod.Namespace pod.Name g with ⟨s1, res⟩
    rw [hd] at h
    cases res with
    | some e =>
      simp only [Option.some.injEq] at h
      subst h
      exact ⟨[], pod, rest, by simp, by simp [deleteRequests, rejectedRequest]⟩
    | none =>
      simp only at h ⊢
      rcases hl : p.deleteLoop g rest s1 with ⟨s2, tr, r⟩
      rw [hl] at h
      have h2 := ih s1
      rw [hl] at h2
      simp only at h
      obtain ⟨pre, q, post, hrest, htr⟩ := h2 h
      refine ⟨pod :: pre, q, post, by simp [hrest], ?_⟩
      simp only at htr
      simp [deleteRequests, acceptedRequest, htr]

/-- The result of `deletePods` and its delete requests: a returned error is the
error of a rejected delete request, the last one issued; otherwise (`nil`
returned, or still polling) every pod got a delete request that was
accepted. -/
theorem deletePods_requests {σ : Type} (p : podEvictionHandler σ) (fuel : Nat) (g : Int)
    (pods : List Pod) (s : σ) :
    (∀ err, (p.deletePods fuel pods g s).2.2 = Progress.returned (some err) →
      ∃ pre pod post, pods = pre ++ pod :: post ∧
        deleteRequests (p.deletePods fuel pods g s).2.1
          = pre.map (acceptedRequest g) ++ [rejectedRequest g pod err]) ∧
    ((p.deletePods fuel pods g s).2.2 = Progress.returned none ∨
        (p.deletePods fuel pods g s).2.2 = Progress.polling →
      deleteRequests (p.deletePods fuel pods g s).2.1 = pods.map (acceptedRequest g)) := by
  unfold podEvictionHandler.deletePods
  have h1 := deleteLoop_ok p g pods s
  have h1e := deleteLoop_err p g pods s
  rcases hl : p.deleteLoop g pods s with ⟨s1, tr, res⟩
  rw [hl] at h1 h1e
  cases res with
  | some e =>
    refine ⟨?_, ?_⟩
    · intro err h
      simp only [Progress.returned.injEq, Option.some.injEq] at h
      exact h1e err (by simp [h])
    · intro h
      simp at h
  | none =>
    have h2 := waitLoop_deleteRequests p fuel g pods s1
    rcases hw : p.waitLoop fuel g pods s1 with ⟨s2, tr2, fin⟩
    rw [hw] at h2
    simp only at h1 h2
    cases fin with
    | true =>
      refine ⟨?_, ?_⟩
      · intro err h
        simp [hw] at h
      · intro _
        simp [hw, deleteRequests_append, h1, h2]
    | false =>
      refine ⟨?_, ?_⟩
      · intro err h
        simp [hw] at h
      · intro _
        simp [hw, deleteRequests_append, h1, h2]

theorem EvictPods_ok {σ : Type} (p : podEvictionHandler σ) (fuel : Nat) (E : StringMap)
    (timeout : Int) (s : σ) (h : (p.EvictPods fuel E timeout s).2.2 = Progress.returned none) :
    ∃ s1 items, p.client.List s p.node = (s1, Except.ok items) ∧
      deleteRequests (p.EvictPods fuel E timeout s).2.1
        = (separatePods E items).2.map
            (acceptedRequest (regularGracePeriod timeout p.systemPodGracePeriod)) ++
          (separatePods E items).1.map
            (acceptedRequest (systemGracePeriod p.systemPodGracePeriod)) := by
  unfold podEvictionHandler.EvictPods at h ⊢
  rcases hl : p.client.List s p.node with ⟨s1, res⟩
  rw [hl] at h
  cases res with
  | error e => simp at h
  | ok items =>
    refine ⟨s1, items, rfl, ?_⟩
    simp only at h ⊢
    have h1 := (deletePods_requests p fuel (regularGracePeriod timeout p.systemPodGracePeriod)
      (separatePods E items).2 s1).2
    rcases hr : p.deletePods fuel (separatePods E items).2
      (regularGracePeriod timeout p.systemPodGracePeriod) s1 with ⟨s2, tr2, r2⟩
    rw [hr] at h h1
    cases r2 with
    | polling => simp at h
    | returned e2 =>
      cases e2 with
      | some e => simp at h
      | none =>
        simp only at h h1 ⊢
        have h2 := (deletePods_requests p fuel (systemGracePeriod p.systemPodGracePeriod)
          (separatePods E items).1 s2).2
        rcases hs : p.deletePods fuel (separatePods E items).1
          (systemGracePeriod p.systemPodGracePeriod) s2 with ⟨s3, tr3, r3⟩
        rw [hs] at h h2
        simp only at h h2
        subst h
        simp [deleteRequests, deleteRequests_append, h1, h2]

theorem EvictPods_err {σ : Type} (p : podEvictionHandler σ) (fuel : Nat) (E : StringMap)
    (timeout : Int) (s : σ) (err : Error)
    (h : (p.EvictPods fuel E timeout s).2.2 = Progress.returned (some err)) :
    (∃ s1, p.client.List s p.node = (s1, Except.error err) ∧
      deleteRequests (p.EvictPods fuel E timeout s).2.1 = []) ∨
    (∃ s1 items, p.client.List s p.node = (s1, Except.ok items) ∧
      ((∃ pre pod post, (separatePods E items).2 = pre ++ pod :: post ∧
          deleteRequests (p.EvictPods fuel E timeout s).2.1
            = pre.map (acceptedRequest (regularGracePeriod timeout p.systemPodGracePeriod)) ++
              [rejectedRequest (regularGracePeriod timeout p.systemPodGracePeriod) pod err]) ∨
       (∃ pre pod post, (separatePods E items).1 = pre ++ pod :: post ∧
          deleteRequests (p.EvictPods fuel E timeout s).2.1
            = (separatePods E items).2.map
                (acceptedRequest (regularGracePeriod timeout p.systemPodGracePeriod)) ++
              (pre.map (acceptedRequest (systemGracePeriod p.systemPodGracePeriod)) ++
                [rejectedRequest (systemGracePeriod p.systemPodGracePeriod) pod err])))) := by
  unfold podEvictionHandler.EvictPods at h ⊢
  rcases hl : p.client.List s p.node with ⟨s1, res⟩
  rw [hl] at h
  cases res with
  | error e =>
    simp only [Progress.returned.injEq, Option.some.injEq] at h
    subst h
    exact Or.inl ⟨s1, rfl, by simp [deleteRequests]⟩
  | ok items =>
    refine Or.inr ⟨s1, items, rfl, ?_⟩
    simp only at h ⊢
    have h1 := deletePods_requests p fuel (regularGracePeriod timeout p.systemPodGracePeriod)
      (separatePods E items).2 s1
    rcases hr : p.deletePods fuel (separatePods E items).2
      (regularGracePeriod timeout p.systemPodGracePeriod) s1 with ⟨s2, tr2, r2⟩
    rw [hr] at h h1
    cases r2 with
    | polling => simp at h
    | returned e2 =>
      cases e2 with
      | some e =>
        simp only [Progress.returned.injEq, Option.some.injEq] at h
        subst h
        obtain ⟨pre, pod, post, hp, ht⟩ := h1.1 e rfl
        exact Or.inl ⟨pre, pod, post, hp, by simp [deleteRequests, ht]⟩
      | none =>
        simp only at h ⊢
        have h1' := h1.2 (Or.inl rfl)
        have h2 := deletePods_requests p fuel (systemGracePeriod p.systemPodGracePeriod)
          (separatePods E items).1 s2
        rcases hs : p.deletePods fuel (separatePods E items).1
          (systemGracePeriod p.systemPodGracePeriod) s2 with ⟨s3, tr3, r3⟩
        rw [hs] at h h2
        simp only at h
        subst h
        obtain ⟨pre, pod, post, hp, ht⟩ := h2.1 err rfl
        simp only at h1' ht
        exact Or.inr ⟨pre, pod, post, hp,
          by simp [deleteRequests, deleteRequests_append, h1', ht]⟩

/-- When `EvictPods` is still polling, the listing succeeded and every delete
request issued so far was accepted: those for all regular pods, and, when the
wait is for a system pod, those for all system pods as well. -/
theorem EvictPods_polling {σ : Type} (p : podEvictionHandler σ) (fuel : Nat) (E : StringMap)
    (timeout : Int) (s : σ) (h : (p.EvictPods fuel E timeout s).2.2 = Progress.polling) :
    ∃ s1 items, p.client.List s p.node = (s1, Except.ok items) ∧
      (deleteRequests (p.EvictPods fuel E timeout s).2.1
          = (separatePods E items).2.map
              (acceptedRequest (regularGracePeriod timeout p.systemPodGracePeriod)) ∨
       deleteRequests (p.EvictPods fuel E timeout s).2.1
          = (separatePods E items).2.map
              (acceptedRequest (regularGracePeriod timeout p.systemPodGracePeriod)) ++
            (separatePods E items).1.map
              (acceptedRequest (systemGracePeriod p.systemPodGracePeriod))) := by
  unfold podEvictionHandler.EvictPods at h ⊢
  rcases hl : p.client.List s p.node with ⟨s1, res⟩
  rw [hl] at h
  cases res with
  | error e => simp at h
  | ok items =>
    refine ⟨s1, items, rfl, ?_⟩
    simp only at h ⊢
    have h1 := (deletePods_requests p fuel (regularGracePeriod timeout p.systemPodGracePeriod)
      (separatePods E items).2 s1).2
    rcases hr : p.deletePods fuel (separatePods E items).2
      (regularGracePeriod timeout p.systemPodGracePeriod) s1 with ⟨s2, tr2, r2⟩
    rw [hr] at h h1
    cases r2 with
    | polling =>
      have h1' := h1 (Or.inr rfl)
      simp only at h1'
      exact Or.inl (by simp [deleteRequests, h1'])
    | returned e2 =>
      cases e2 with
      | some e => simp at h
      | none =>
        have h1' := h1 (Or.inl rfl)
        simp only at h h1' ⊢
        have h2 := (deletePods_requests p fuel (systemGracePeriod p.systemPodGracePeriod)
          (separatePods E items).1 s2).2
        rcases hs : p.deletePods fuel (separatePods E items).1
          (systemGracePeriod p.systemPodGracePeriod) s2 with ⟨s3, tr3, r3⟩
        rw [hs] at h h2
        simp only at h h2
        subst h
        have h2' := h2 (Or.inr rfl)
        exact Or.inr (by simp [deleteRequests, deleteRequests_append, h1', h2'])

theorem Seconds_whole (t : Int) : Seconds (t * Second) = (t : ℚ) := by
  have h1 : Int.tdiv (t * Second) Second = t := by
    unfold Second
    exact Int.mul_tdiv_cancel t (by decide)
  have h2 : Int.tmod (t * Second) Second = 0 := by
    unfold Second
    exact Int.mul_tmod_left t 1000000000
  unfold Seconds
  rw [h1, h2]
  simp

theorem int64OfFloat_intCast (z : Int) : int64OfFloat (z : ℚ) = z := by
  unfold int64OfFloat
  split <;> simp

theorem wrapInt64_of_range (x : Int) (h1 : minInt64 ≤ x) (h2 : x ≤ maxInt64) :
    wrapInt64 x = x := by
  unfold minInt64 at h1
  unfold maxInt64 at h2
  unfold wrapInt64
  omega

theorem regularGracePeriod_whole (t sec : Int) (h1 : minInt64 ≤ 2 * (sec * Second))
    (h2 : 2 * (sec * Second) ≤ maxInt64) :
    regularGracePeriod (t * Second) (sec * Second) = if t < 2 * sec then 0 else t - sec := by
  unfold regularGracePeriod
  rw [wrapInt64_of_range _ h1 h2, Seconds_whole, Seconds_whole]
  have hcast : ((t : ℚ) - (sec : ℚ)) = ((t - sec : Int) : ℚ) := by push_cast; ring
  rw [hcast, int64OfFloat_intCast]
  unfold Second
  by_cases h : t < 2 * sec
  · rw [if_pos h, if_neg (by omega)]
  · rw [if_neg h, if_pos (by omega)]

theorem systemGracePeriod_whole (sec : Int) : systemGracePeriod (sec * Second) = sec := by
  unfold systemGracePeriod
  rw [Seconds_whole, int64OfFloat_intCast]

theorem mem_separatePods_regular (E : StringMap) (items : List Pod) (pod : Pod)
    (h : pod ∈ (separatePods E items).2) :
    pod ∈ items ∧ excluded E pod = false ∧ pod.Namespace ≠ systemNamespace := by
  rw [separatePods_eq] at h
  simpa [List.mem_filter] using h

theorem mem_separatePods_system (E : StringMap) (items : List Pod) (pod : Pod)
    (h : pod ∈ (separatePods E items).1) :
    pod ∈ items ∧ excluded E pod = false ∧ pod.Namespace = systemNamespace := by
  rw [separatePods_eq] at h
  simpa [List.mem_filter] using h

theorem filter_split_perm (l : List Pod) (a b : Pod → Bool) :
    (l.filter (fun p => a p && !b p) ++ l.filter (fun p => a p && b p)).Perm (l.filter a) := by
  induction l with
  | nil => simp
  | cons x l ih =>
    cases ha : a x <;> cases hb : b x <;> simp [List.filter_cons, ha, hb, ih]
    exact List.perm_middle.trans (ih.cons x)

/-- Where the delete requests of one `EvictPods` come from, whatever its
result: a block of requests for pods of `regularPods` with the regular grace
period, then a block of requests for pods of `systemPods` with the system grace
period. -/
theorem EvictPods_requests_origin {σ : Type} (p : podEvictionHandler σ) (fuel : Nat)
    (E : StringMap) (timeout : Int) (s : σ) :
    ∃ items A B, deleteRequests (p.EvictPods fuel E timeout s).2.1 = A ++ B ∧
      (∀ r ∈ A, ∃ pod ∈ (separatePods E items).2, r.1 = pod.Namespace ∧ r.2.1 = pod.Name ∧
        r.2.2.1 = regularGracePeriod timeout p.systemPodGracePeriod) ∧
      (∀ r ∈ B, ∃ pod ∈ (separatePods E items).1, r.1 = pod.Namespace ∧ r.2.1 = pod.Name ∧
        r.2.2.1 = systemGracePeriod p.systemPodGracePeriod) := by
  have hacc : ∀ (g : Int) (l pre : List Pod), (∀ q ∈ pre, q ∈ l) →
      ∀ r ∈ pre.map (acceptedRequest g),
        ∃ pod ∈ l, r.1 = pod.Namespace ∧ r.2.1 = pod.Name ∧ r.2.2.1 = g := by
    intro g l pre hpre r hr
    obtain ⟨q, hq, rfl⟩ := List.mem_map.1 hr
    exact ⟨q, hpre q hq, rfl, rfl, rfl⟩
  have hrej : ∀ (g : Int) (l pre : List Pod) (pod : Pod) (err : Error),
      (∀ q ∈ pre, q ∈ l) → pod ∈ l →
      ∀ r ∈ pre.map (acceptedRequest g) ++ [rejectedRequest g pod err],
        ∃ pod ∈ l, r.1 = pod.Namespace ∧ r.2.1 = pod.Name ∧ r.2.2.1 = g := by
    intro g l pre pod err hpre hpod r hr
    rcases List.mem_append.1 hr with hr | hr
    · exact hacc g l pre hpre r hr
    · simp only [List.mem_singleton] at hr
      subst hr
      exact ⟨pod, hpod, rfl, rfl, rfl⟩
  cases hres : (p.EvictPods fuel E timeout s).2.2 with
  | polling =>
    obtain ⟨s1, items, _, htr | htr⟩ := EvictPods_polling p fuel E timeout s hres
    · exact ⟨items, _, [], by rw [htr, List.append_nil], hacc _ _ _ (fun _ h => h), by simp⟩
    · exact ⟨items, _, _, htr, hacc _ _ _ (fun _ h => h), hacc _ _ _ (fun _ h => h)⟩
  | returned e =>
    cases e with
    | none =>
      obtain ⟨s1, items, _, htr⟩ := EvictPods_ok p fuel E timeout s hres
      exact ⟨items, _, _, htr, hacc _ _ _ (fun _ h => h), hacc _ _ _ (fun _ h => h)⟩
    | some err =>
      rcases EvictPods_err p fuel E timeout s err hres with ⟨s1, _, htr⟩ | ⟨s1, items, _, h⟩
      · exact ⟨[], [], [], by simp [htr], by simp, by simp⟩
      · rcases h with ⟨pre, pod, post, hsplit, htr⟩ | ⟨pre, pod, post, hsplit, htr⟩
        · refine ⟨items, _, [], by rw [htr, List.append_nil], ?_, by simp⟩
          exact hrej _ _ pre pod err (fun q hq => by rw [hsplit]; simp [hq])
            (by rw [hsplit]; simp)
        · refine ⟨items, _, _, htr, hacc _ _ _ (fun _ h => h), ?_⟩
          exact hrej _ _ pre pod err (fun q hq => by rw [hsplit]; simp [hq])
            (by rw [hsplit]; simp)

/-- The delete requests of one `EvictPods` are a block of requests for regular
pods with the regular grace period, then a block of requests for system pods
with the system grace period. -/
theorem EvictPods_blocks {σ : Type} (p : podEvictionHandler σ) (fuel : Nat) (E : StringMap)
    (timeout : Int) (s : σ) :
    ∃ A B, deleteRequests (p.EvictPods fuel E timeout s).2.1 = A ++ B ∧
      (∀ r ∈ A, r.1 ≠ systemNamespace ∧
        r.2.2.1 = regularGracePeriod timeout p.systemPodGracePeriod) ∧
      (∀ r ∈ B, r.1 = systemNamespace ∧ r.2.2.1 = systemGracePeriod p.systemPodGracePeriod) := by
  obtain ⟨items, A, B, htr, hA, hB⟩ := EvictPods_requests_origin p fuel E timeout s
  refine ⟨A, B, htr, ?_, ?_⟩
  · intro r hr
    obtain ⟨pod, hpod, hns, _, hg⟩ := hA r hr
    exact ⟨by rw [hns]; exact (mem_separatePods_regular E items pod hpod).2.2, hg⟩
  · intro r hr
    obtain ⟨pod, hpod, hns, _, hg⟩ := hB r hr
    exact ⟨by rw [hns]; exact (mem_separatePods_system E items pod hpod).2.2, hg⟩

/-- Every delete request of `EvictPods` is for a listed pod whose
`(name, namespace)` is not an entry of the exclude map, whatever the result of
the call. -/
theorem EvictPods_requests_not_excluded {σ : Type} (p : podEvictionHandler σ) (fuel : Nat)
    (E : StringMap) (timeout : Int) (s : σ) :
    ∀ r ∈ deleteRequests (p.EvictPods fuel E timeout s).2.1, E.lookup r.2.1 ≠ some r.1 := by
  obtain ⟨items, A, B, htr, hA, hB⟩ := EvictPods_requests_origin p fuel E timeout s
  intro r hr
  rw [htr] at hr
  rcases List.mem_append.1 hr with hr | hr
  · obtain ⟨pod, hpod, hns, hname, _⟩ := hA r hr
    have := (mem_separatePods_regular E items pod hpod).2.1
    rw [hns, hname]
    simpa [excluded] using this
  · obtain ⟨pod, hpod, hns, hname, _⟩ := hB r hr
    have := (mem_separatePods_system E items pod hpod).2.1
    rw [hns, hname]
    simpa [excluded] using this

/-- Polls with a timer always return. -/
theorem pollUntil_timer_returns {σ : Type}
    (condition : σ → σ × List Call × Bool × Option Error) (count : Nat) (s : σ) :
    (pollUntil condition false count s).2.2 ≠ Progress.polling := by
  induction count generalizing s with
  | zero =>
    unfold pollUntil
    rcases condition s with ⟨s1, tr, done, err⟩
    cases err <;> cases done <;> simp
  | succ n ih =>
    unfold pollUntil
    rcases condition s with ⟨s1, tr, done, err⟩
    cases err with
    | some e => simp
    | none =>
      cases done with
      | true => simp
      | false =>
        have h2 := ih s1
        rcases hp : pollUntil condition false n s1 with ⟨s2, tr2, res⟩
        rw [hp] at h2
        simpa [hp] using h2

/-- A wait with a timeout other than zero always returns. -/
theorem waitForPodNotFound_returns {σ : Type} (p : podEvictionHandler σ) (fuel : Nat)
    (podName ns : String) (timeout : Int) (s : σ) (h : timeout ≠ 0) :
    (p.waitForPodNotFound fuel podName ns timeout s).2.2 ≠ Progress.polling := by
  unfold podEvictionHandler.waitForPodNotFound PollImmediate
  rw [if_neg h]
  exact pollUntil_timer_returns _ _ s

theorem waitLoop_finishes {σ : Type} (p : podEvictionHandler σ) (fuel : Nat) (g : Int)
    (pods : List Pod) (s : σ) (h : wrapInt64 (g * Second) ≠ 0) :
    (p.waitLoop fuel g pods s).2.2 = true := by
  induction pods generalizing s with
  | nil => rfl
  | cons pod rest ih =>
    unfold podEvictionHandler.waitLoop
    have h1 := waitForPodNotFound_returns p fuel pod.Name pod.Namespace
      (wrapInt64 (g * Second)) s h
    rcases hw : p.waitForPodNotFound fuel pod.Name pod.Namespace (wrapInt64 (g * Second)) s
      with ⟨s1, tr, res⟩
    rw [hw] at h1
    cases res with
    | polling => exact absurd rfl h1
    | returned e =>
      have h2 := ih s1
      rcases hl : p.waitLoop fuel g rest s1 with ⟨s2, tr2, fin⟩
      rw [hl] at h2
      simpa [hl] using h2

theorem deletePods_returns {σ : Type} (p : podEvictionHandler σ) (fuel : Nat) (g : Int)
    (pods : List Pod) (s : σ) (h : wrapInt64 (g * Second) ≠ 0) :
    (p.deletePods fuel pods g s).2.2 ≠ Progress.polling := by
  unfold podEvictionHandler.deletePods
  rcases p.deleteLoop g pods s with ⟨s1, tr, res⟩
  cases res with
  | some e => simp
  | none =>
    have h2 := waitLoop_finishes p fuel g pods s1 h
    rcases hw : p.waitLoop fuel g pods s1 with ⟨s2, tr2, fin⟩
    rw [hw] at h2
    simp only at h2
    subst h2
    simp [hw]

/-- When neither wait has a timeout of zero, `EvictPods` returns, whatever the
cluster answers. -/
theorem EvictPods_returns {σ : Type} (p : podEvictionHandler σ) (fuel : Nat) (E : StringMap)
    (timeout : Int) (s : σ)
    (h1 : wrapInt64 (regularGracePeriod timeout p.systemPodGracePeriod * Second) ≠ 0)
    (h2 : wrapInt64 (systemGracePeriod p.systemPodGracePeriod * Second) ≠ 0) :
    (p.EvictPods fuel E timeout s).2.2 ≠ Progress.polling := by
  unfold podEvictionHandler.EvictPods
  rcases p.client.List s p.node with ⟨s1, res⟩
  cases res with
  | error e => simp
  | ok items =>
    simp only
    have hr := deletePods_returns p fuel (regularGracePeriod timeout p.systemPodGracePeriod)
      (separatePods E items).2 s1 h1
    rcases hd : p.deletePods fuel (separatePods E items).2
      (regularGracePeriod timeout p.systemPodGracePeriod) s1 with ⟨s2, tr2, r2⟩
    rw [hd] at hr
    cases r2 with
    | polling => exact absurd rfl hr
    | returned e2 =>
      cases e2 with
      | some e => simp
      | none =>
        simp only
        have hs := deletePods_returns p fuel (systemGracePeriod p.systemPodGracePeriod)
          (separatePods E items).1 s2 h2
        rcases hd2 : p.deletePods fuel (separatePods E items).1
          (systemGracePeriod p.systemPodGracePeriod) s2 with ⟨s3, tr3, r3⟩
        rw [hd2] at hs
        exact hs

/-- A call without a timer that has returned within `count` polls has returned
the same within `count + 1` polls. -/
theorem pollUntil_more_fuel {σ : Type}
    (condition : σ → σ × List Call × Bool × Option Error) (count : Nat) (s : σ)
    (h : (pollUntil condition true count s).2.2 ≠ Progress.polling) :
    pollUntil condition true (count + 1) s = pollUntil condition true count s := by
  induction count generalizing s with
  | zero =>
    rw [pollUntil]
    conv => rhs; rw [pollUntil]
    rw [pollUntil] at h
    rcases hc : condition s with ⟨s1, tr, done, err⟩
    rw [hc] at h
    cases err with
    | some e => cases done <;> rfl
    | none =>
      cases done with
      | true => rfl
      | false => simp at h
  | succ n ih =>
    rw [pollUntil]
    conv => rhs; rw [pollUntil]
    rw [pollUntil] at h
    rcases hc : condition s with ⟨s1, tr, done, err⟩
    rw [hc] at h
    cases err with
    | some e => cases done <;> rfl
    | none =>
      cases done with
      | true => rfl
      | false =>
        simp only at h ⊢
        have h' : (pollUntil condition true n s1).2.2 ≠ Progress.polling := by
          rcases hp : pollUntil condition true n s1 with ⟨s2, tr2, res⟩
          rw [hp] at h
          exact h
        rw [ih s1 h']

theorem waitForPodNotFound_more_fuel {σ : Type} (p : podEvictionHandler σ) (fuel : Nat)
    (podName ns : String) (timeout : Int) (s : σ)
    (h : (p.waitForPodNotFound fuel podName ns timeout s).2.2 ≠ Progress.polling) :
    p.waitForPodNotFound (fuel + 1) podName ns timeout s
      = p.waitForPodNotFound fuel podName ns timeout s := by
  unfold podEvictionHandler.waitForPodNotFound PollImmediate at h ⊢
  by_cases ht : timeout = 0
  · rw [if_pos ht] at h
    rw [if_pos ht, if_pos ht]
    exact pollUntil_more_fuel _ fuel s h
  · rw [if_neg ht, if_neg ht]

theorem waitLoop_more_fuel {σ : Type} (p : podEvictionHandler σ) (fuel : Nat) (g : Int)
    (pods : List Pod) (s : σ) (h : (p.waitLoop fuel g pods s).2.2 = true) :
    p.waitLoop (fuel + 1) g pods s = p.waitLoop fuel g pods s := by
  induction pods generalizing s with
  | nil => rfl
  | cons pod rest ih =>
    rw [podEvictionHandler.waitLoop]
    conv => rhs; rw [podEvictionHandler.waitLoop]
    rw [podEvictionHandler.waitLoop] at h
    have hm := waitForPodNotFound_more_fuel p fuel pod.Name pod.Namespace
      (wrapInt64 (g * Second)) s
    rcases hw : p.waitForPodNotFound fuel pod.Name pod.Namespace (wrapInt64 (g * Second)) s
      with ⟨s1, tr, res⟩
    rw [hw] at h hm
    cases res with
    | polling => simp at h
    | returned e =>
      rw [hm (by simp)]
      simp only at h ⊢
      have h' : (p.waitLoop fuel g rest s1).2.2 = true := by
        rcases hl : p.waitLoop fuel g rest s1 with ⟨s2, tr2, fin⟩
        rw [hl] at h
        exact h
      rw [ih s1 h']

theorem deletePods_more_fuel {σ : Type} (p : podEvictionHandler σ) (fuel : Nat) (g : Int)
    (pods : List Pod) (s : σ) (h : (p.deletePods fuel pods g s).2.2 ≠ Progress.polling) :
    p.deletePods (fuel + 1) pods g s = p.deletePods fuel pods g s := by
  unfold podEvictionHandler.deletePods at h ⊢
  rcases hl : p.deleteLoop g pods s with ⟨s1, tr, res⟩
  rw [hl] at h
  cases res with
  | some e => rfl
  | none =>
    simp only at h ⊢
    have hm := waitLoop_more_fuel p fuel g pods s1
    rcases hw : p.waitLoop fuel g pods s1 with ⟨s2, tr2, fin⟩
    rw [hw] at h hm
    cases fin with
    | false => simp at h
    | true => rw [hm rfl]

/-- Once `EvictPods` has returned, more fuel changes nothing: the fuel only
bounds how long a call that has not returned is observed. -/
theorem EvictPods_more_fuel {σ : Type} (p : podEvictionHandler σ) (fuel : Nat) (E : StringMap)
    (timeout : Int) (s : σ) (h : (p.EvictPods fuel E timeout s).2.2 ≠ Progress.polling) :
    p.EvictPods (fuel + 1) E timeout s = p.EvictPods fuel E timeout s := by
  unfold podEvictionHandler.EvictPods at h ⊢
  rcases hl : p.client.List s p.node with ⟨s1, res⟩
  rw [hl] at h
  cases res with
  | error e => rfl
  | ok items =>
    simp only at h ⊢
    have hm := deletePods_more_fuel p fuel (regularGracePeriod timeout p.systemPodGracePeriod)
      (separatePods E items).2 s1
    rcases hd : p.deletePods fuel (separatePods E items).2
      (regularGracePeriod timeout p.systemPodGracePeriod) s1 with ⟨s2, tr2, r2⟩
    rw [hd] at h hm
    cases r2 with
    | polling => simp at h
    | returned e2 =>
      rw [hm (by simp)]
      cases e2 with
      | some e => rfl
      | none =>
        simp only at h ⊢
        have hm2 := deletePods_more_fuel p fuel (systemGracePeriod p.systemPodGracePeriod)
          (separatePods E items).1 s2
        rcases hd2 : p.deletePods fuel (separatePods E items).1
          (systemGracePeriod p.systemPodGracePeriod) s2 with ⟨s3, tr3, r3⟩
        rw [hd2] at h hm2
        rw [hm2 h]

theorem rejected_is_last {α : Type} (P : α → Prop) (a b X : List α) (r y : α)
    (h : a ++ r :: b = X ++ [y]) (hX : ∀ x ∈ X, P x) (hr : ¬ P r) : b = [] ∧ r = y := by
  rcases List.eq_nil_or_concat b with hb | ⟨b', z, hb⟩
  · subst hb
    have h' : a ++ [r] = X ++ [y] := h
    have := List.append_inj_right' h' rfl
    exact ⟨rfl, by simpa using this⟩
  · subst hb
    have h' : (a ++ r :: b') ++ [z] = X ++ [y] := by simpa using h
    have := List.append_inj_left' h' rfl
    exact absurd (hX r (by rw [← this]; simp)) hr

/-- What the result of `EvictPods` says about the listing and the delete
requests, whenever it is observed: `nil` is returned only if the listing
succeeded and every delete request was accepted, and then it is what is
returned; a rejected delete request is the last delete request, every request
before it was accepted, and its error is returned; the error of a failed
listing is returned and no delete request is issued; and a call that is still
polling has had its listing and every delete request so far accepted. -/
theorem EvictPods_result {σ : Type} (p : podEvictionHandler σ) (fuel : Nat) (E : StringMap)
    (timeout : Int) (s : σ) :
    (∀ e, (p.EvictPods fuel E timeout s).2.2 = Progress.returned e →
      (e = none ↔
        ((∃ s1 items, p.client.List s p.node = (s1, Except.ok items)) ∧
          ∀ r ∈ deleteRequests (p.EvictPods fuel E timeout s).2.1, r.2.2.2 = none))) ∧
    (∀ a r b, deleteRequests (p.EvictPods fuel E timeout s).2.1 = a ++ r :: b →
      r.2.2.2 ≠ none →
      b = [] ∧ (p.EvictPods fuel E timeout s).2.2 = Progress.returned r.2.2.2 ∧
        ∀ x ∈ a, x.2.2.2 = none) ∧
    (∀ s1 err, p.client.List s p.node = (s1, Except.error err) →
      (p.EvictPods fuel E timeout s).2.2 = Progress.returned (some err) ∧
        deleteRequests (p.EvictPods fuel E timeout s).2.1 = []) ∧
    ((p.EvictPods fuel E timeout s).2.2 = Progress.polling →
      (∃ s1 items, p.client.List s p.node = (s1, Except.ok items)) ∧
        ∀ r ∈ deleteRequests (p.EvictPods fuel E timeout s).2.1, r.2.2.2 = none) := by
  have hacc : ∀ (g : Int) (l : List Pod), ∀ x ∈ l.map (acceptedRequest g), x.2.2.2 = none := by
    intro g l x hx
    obtain ⟨q, _, rfl⟩ := List.mem_map.1 hx
    rfl
  have hok : (p.EvictPods fuel E timeout s).2.2 = Progress.returned none →
      ∀ r ∈ deleteRequests (p.EvictPods fuel E timeout s).2.1, r.2.2.2 = none := by
    intro h r hr
    obtain ⟨s1, items, _, htr⟩ := EvictPods_ok p fuel E timeout s h
    rw [htr] at hr
    rcases List.mem_append.1 hr with hr | hr
    · exact hacc _ _ r hr
    · exact hacc _ _ r hr
  have hpoll : (p.EvictPods fuel E timeout s).2.2 = Progress.polling →
      (∃ s1 items, p.client.List s p.node = (s1, Except.ok items)) ∧
        ∀ r ∈ deleteRequests (p.EvictPods fuel E timeout s).2.1, r.2.2.2 = none := by
    intro h
    obtain ⟨s1, items, hl, htr | htr⟩ := EvictPods_polling p fuel E timeout s h
    · exact ⟨⟨s1, items, hl⟩, by rw [htr]; exact hacc _ _⟩
    · refine ⟨⟨s1, items, hl⟩, ?_⟩
      rw [htr]
      intro r hr
      rcases List.mem_append.1 hr with hr | hr
      · exact hacc _ _ r hr
      · exact hacc _ _ r hr
  have herr : ∀ err, (p.EvictPods fuel E timeout s).2.2 = Progress.returned (some err) →
      (∃ s1, p.client.List s p.node = (s1, Except.error err) ∧
        deleteRequests (p.EvictPods fuel E timeout s).2.1 = []) ∨
      ((∃ s1 items, p.client.List s p.node = (s1, Except.ok items)) ∧
        ∃ X y, deleteRequests (p.EvictPods fuel E timeout s).2.1 = X ++ [y] ∧
          (∀ x ∈ X, x.2.2.2 = none) ∧ y.2.2.2 = some err) := by
    intro err h
    rcases EvictPods_err p fuel E timeout s err h with ⟨s1, hl, htr⟩ | ⟨s1, items, hl, h'⟩
    · exact Or.inl ⟨s1, hl, htr⟩
    · refine Or.inr ⟨⟨s1, items, hl⟩, ?_⟩
      rcases h' with ⟨pre, pod, post, _, htr⟩ | ⟨pre, pod, post, _, htr⟩
      · exact ⟨_, _, htr, hacc _ _, rfl⟩
      · rw [← List.append_assoc] at htr
        refine ⟨_, _, htr, ?_, rfl⟩
        intro x hx
        rcases List.mem_append.1 hx with hx | hx
        · exact hacc _ _ x hx
        · exact hacc _ _ x hx
  refine ⟨?_, ?_, ?_, hpoll⟩
  · intro e hres
    cases e with
    | none =>
      refine ⟨fun _ => ⟨?_, hok hres⟩, fun _ => rfl⟩
      obtain ⟨s1, items, hl, _⟩ := EvictPods_ok p fuel E timeout s hres
      exact ⟨s1, items, hl⟩
    | some err =>
      refine ⟨fun h => by simp at h, ?_⟩
      rintro ⟨⟨s1, items, hl⟩, hall⟩
      rcases herr err hres with ⟨s1', hl', _⟩ | ⟨_, X, y, htr, _, hy⟩
      · rw [hl] at hl'
        simp at hl'
      · have := hall y (by rw [htr]; simp)
        rw [hy] at this
        simp at this
  · intro a r b htr hr
    cases hres : (p.EvictPods fuel E timeout s).2.2 with
    | polling => exact absurd ((hpoll hres).2 r (by rw [htr]; simp)) hr
    | returned e =>
      cases e with
      | none => exact absurd (hok hres r (by rw [htr]; simp)) hr
      | some err =>
        rcases herr err hres with ⟨_, _, htr'⟩ | ⟨_, X, y, htr', hX, hy⟩
        · rw [htr'] at htr
          simp at htr
        · rw [htr'] at htr
          obtain ⟨hb, hry⟩ :=
            rejected_is_last (fun x => x.2.2.2 = none) a b X r y htr.symm hX hr
          subst hb
          subst hry
          refine ⟨rfl, by rw [hy], ?_⟩
          have hXa : X = a := List.append_inj_left' htr rfl
          rw [← hXa]
          exact hX
  · intro s1 err hl
    unfold podEvictionHandler.EvictPods
    rw [hl]
    exact ⟨rfl, by simp [deleteRequests]⟩

/-- Polls without a timer of a condition that is never done and never fails:
after any number of polls the call is still polling. -/
theorem pollUntil_never_done {σ : Type} (condition : σ → σ × List Call × Bool × Option Error)
    (call : Call) (hc : ∀ s, condition s = (s, [call], false, none)) (count : Nat) (s : σ) :
    pollUntil condition true count s
      = (s, List.replicate (count + 1) call, Progress.polling) := by
  induction count generalizing s with
  | zero =>
    rw [pollUntil, hc s]
    rfl
  | succ n ih =>
    rw [pollUntil, hc s]
    simp only
    rw [ih s]
    rfl

theorem regularGracePeriod_30_30 : regularGracePeriod (30 * Second) (30 * Second) = 0 := by
  rw [regularGracePeriod_whole 30 30 (by decide) (by decide)]
  decide

/-- On the cluster whose pods never go away, a wait with timeout zero is still
polling after any number of polls. -/
theorem stuck_wait_never_returns (sec : Int) (fuel : Nat) (podName ns : String)
    (s : List Pod) :
    (stuckHandler GetResult.found sec).waitForPodNotFound fuel podName ns 0 s
      = (s, List.replicate (fuel + 1) (Call.get ns podName), Progress.polling) := by
  unfold podEvictionHandler.waitForPodNotFound PollImmediate
  rw [if_pos rfl]
  exact pollUntil_never_done _ (Call.get ns podName) (fun _ => rfl) fuel s

/-- With the default system-pod grace period of 30 s and a timeout of 30 s, on
the cluster whose pods never go away, `EvictPods` is still polling for the
regular pod `foo` after any number of polls. -/
theorem stuckHandler_never_returns (fuel : Nat) :
    (stuckHandler GetResult.found (30 * Second)).EvictPods fuel [] (30 * Second) testPods
      = (testPods,
         [Call.list "localhost",
          Call.event { Name := "foo", Namespace := "default", NodeName := "localhost" }
            "NodeTermination",
          Call.delete "default" "foo" 0 none] ++
           List.replicate (fuel + 1) (Call.get "default" "foo"),
         Progress.polling) := by
  have hlist : (stuckHandler GetResult.found (30 * Second)).client.List testPods
      (stuckHandler GetResult.found (30 * Second)).node = (testPods, Except.ok testPods) := rfl
  have hsep : separatePods [] testPods
      = ([{ Name := "bar", Namespace := "kube-system", NodeName := "localhost" },
          { Name := "baz", Namespace := "kube-system", NodeName := "localhost" }],
         [{ Name := "foo", Namespace := "default", NodeName := "localhost" }]) := by
    decide
  have hgrace : regularGracePeriod (30 * Second)
      (stuckHandler GetResult.found (30 * Second)).systemPodGracePeriod = 0 :=
    regularGracePeriod_30_30
  have hloop : (stuckHandler GetResult.found (30 * Second)).deleteLoop 0
      [{ Name := "foo", Namespace := "default", NodeName := "localhost" }] testPods
      = (testPods,
         [Call.event { Name := "foo", Namespace := "default", NodeName := "localhost" }
            "NodeTermination",
          Call.delete "default" "foo" 0 none], none) := by
    decide
  have hwrap : wrapInt64 (0 * Second) = 0 := by decide
  unfold podEvictionHandler.EvictPods
  rw [hlist]
  simp only [hsep, hgrace]
  unfold podEvictionHandler.deletePods
  rw [hloop]
  simp only [podEvictionHandler.waitLoop, hwrap, stuck_wait_never_returns]
  rfl

theorem regularGracePeriod_30_1 : regularGracePeriod (30 * Second) (1 * Second) = 29 := by
  rw [regularGracePeriod_whole 30 1 (by decide) (by decide)]
  decide

theorem regularGracePeriod_1_30 : regularGracePeriod (1 * Second) (30 * Second) = 0 := by
  rw [regularGracePeriod_whole 1 30 (by decide) (by decide)]
  decide

theorem regularGracePeriod_wraps :
    regularGracePeriod (1 * Second) (5000000000 * Second) = -4999999999 := by
  have hw : 1 * Second ≥ wrapInt64 (2 * (5000000000 * Second)) := by decide
  have hcast : ((1 : Int) : ℚ) - ((5000000000 : Int) : ℚ) = ((-4999999999 : Int) : ℚ) := by
    norm_num
  unfold regularGracePeriod
  rw [if_pos hw, Seconds_whole, Seconds_whole, hcast, int64OfFloat_intCast]

theorem testHandler_evicts :
    (testHandler (1 * Second)).EvictPods 1 testExclude (30 * Second) testPods
      = ([{ Name := "baz", Namespace := "kube-system", NodeName := "localhost" }],
         [Call.list "localhost",
          Call.event { Name := "foo", Namespace := "default", NodeName := "localhost" }
            "NodeTermination",
          Call.delete "default" "foo" 29 none,
          Call.get "default" "foo",
          Call.event { Name := "bar", Namespace := "kube-system", NodeName := "localhost" }
            "NodeTermination",
          Call.delete "kube-system" "bar" 1 none,
          Call.get "kube-system" "bar"],
         Progress.returned none) := by
  simp only [podEvictionHandler.EvictPods, testHandler, regularGracePeriod_30_1,
    systemGracePeriod_whole]
  decide

theorem testHandler_evicts_tight :
    deleteRequests ((testHandler (30 * Second)).EvictPods 1 [] (1 * Second) testPods).2.1
      = [("default", "foo", 0, none), ("kube-system", "bar", 30, none),
         ("kube-system", "baz", 30, none)] := by
  simp only [podEvictionHandler.EvictPods, testHandler, regularGracePeriod_1_30,
    systemGracePeriod_whole]
  decide

theorem testHandler_evicts_wrapped :
    deleteRequests ((testHandler (5000000000 * Second)).EvictPods 1 [] (1 * Second) testPods).2.1
      = [("default", "foo", -4999999999, none), ("kube-system", "bar", 5000000000, none),
         ("kube-system", "baz", 5000000000, none)] := by
  simp only [podEvictionHandler.EvictPods, testHandler, regularGracePeriod_wraps,
    systemGracePeriod_whole]
  decide

theorem rejectingHandler_evicts :
    (rejectingHandler (1 * Second)).EvictPods 1 testExclude (30 * Second) testPods
      = (testPods,
         [Call.list "localhost",
          Call.event { Name := "foo", Namespace := "default", NodeName := "localhost" }
            "NodeTermination",
          Call.delete "default" "foo" 29 (some "forbidden")],
         Progress.returned (some "forbidden")) := by
  simp only [podEvictionHandler.EvictPods, rejectingHandler, regularGracePeriod_30_1,
    systemGracePeriod_whole]
  decide

theorem MatchTaint_self (t : Taint) : t.MatchTaint t = true := by
  simp [Taint.MatchTaint]

theorem MatchTaint_comm (a b : Taint) : a.MatchTaint b = b.MatchTaint a := by
  unfold Taint.MatchTaint
  rw [Bool.eq_iff_iff]
  simp only [Bool.and_eq_true, beq_iff_eq]
  constructor <;> rintro ⟨h1, h2⟩ <;> exact ⟨h1.symm, h2.symm⟩

theorem addOrUpdateLoop_mem (t : Taint) (l acc : List Taint) (u : Bool) (h : t ∈ l) :
    addOrUpdateLoop t l acc u = none := by
  induction l generalizing acc u with
  | nil => simp at h
  | cons x rest ih =>
    unfold addOrUpdateLoop
    by_cases hx : t = x
    · subst hx
      simp [MatchTaint_self, semanticDeepEqual]
    · have hr : t ∈ rest := by
        rcases List.mem_cons.1 h with h | h
        · exact absurd h hx
        · exact h
      by_cases hm : t.MatchTaint x = true
      · simp [hm, semanticDeepEqual, hx, ih _ _ hr]
      · simp [hm, ih _ _ hr]

theorem addOrUpdateLoop_not_mem (t : Taint) (l acc : List Taint) (u : Bool) (h : t ∉ l) :
    addOrUpdateLoop t l acc u
      = some (acc ++ l.map (fun x => if t.MatchTaint x then t else x),
              u || l.any (fun x => t.MatchTaint x)) := by
  induction l generalizing acc u with
  | nil => simp [addOrUpdateLoop]
  | cons x rest ih =>
    unfold addOrUpdateLoop
    have hx : ¬ t = x := fun e => h (by simp [e])
    have hr : t ∉ rest := fun e => h (List.mem_cons_of_mem _ e)
    by_cases hm : t.MatchTaint x = true
    · simp [hm, semanticDeepEqual, hx, ih _ _ hr]
    · simp [hm, ih _ _ hr]

theorem addOrUpdateTaint_mem (node : Node) (t : Taint) (h : t ∈ node.Taints) :
    addOrUpdateTaint node t = (node, false) := by
  unfold addOrUpdateTaint
  simp only [addOrUpdateLoop_mem t node.Taints [] false h]

theorem addOrUpdateTaint_not_mem (node : Node) (t : Taint) (h : t ∉ node.Taints) :
    addOrUpdateTaint node t
      = ({ node with Taints :=
            if node.Taints.any (fun x => t.MatchTaint x) then
              node.Taints.map (fun x => if t.MatchTaint x then t else x)
            else node.Taints.map (fun x => if t.MatchTaint x then t else x) ++ [t] }, true) := by
  unfold addOrUpdateTaint
  simp only [addOrUpdateLoop_not_mem t node.Taints [] false h]
  cases hany : node.Taints.any (fun x => t.MatchTaint x) <;> simp

theorem mem_addOrUpdateTaint (node : Node) (t : Taint) :
    t ∈ (addOrUpdateTaint node t).1.Taints := by
  by_cases h : t ∈ node.Taints
  · rw [addOrUpdateTaint_mem node t h]
    exact h
  · rw [addOrUpdateTaint_not_mem node t h]
    cases hany : node.Taints.any (fun x => t.MatchTaint x)
    · simp
    · simp only [if_true]
      obtain ⟨x, hx, hm⟩ := List.any_eq_true.1 hany
      exact List.mem_map.2 ⟨x, hx, by simp [hm]⟩

theorem taintExists_eq_any (taints : List Taint) (t : Taint) :
    taintExists taints t = taints.any (fun x => t.MatchTaint x) := by
  induction taints with
  | nil => simp [taintExists]
  | cons x rest ih =>
    unfold taintExists
    rw [MatchTaint_comm x t]
    cases hm : t.MatchTaint x <;> simp [hm, ih]

theorem deleteTaintLoop_eq (t : Taint) (l acc : List Taint) (d : Bool) :
    deleteTaintLoop t l acc d
      = (acc ++ l.filter (fun x => !t.MatchTaint x), d || l.any (fun x => t.MatchTaint x)) := by
  induction l generalizing acc d with
  | nil => simp [deleteTaintLoop]
  | cons x rest ih =>
    unfold deleteTaintLoop
    cases hm : t.MatchTaint x <;> simp [hm, ih]

theorem removeTaint_eq (node : Node) (t : Taint) :
    removeTaint node t
      = ({ node with Taints := node.Taints.filter (fun x => !t.MatchTaint x) },
         node.Taints.any (fun x => t.MatchTaint x)) := by
  obtain ⟨name, annotations, taints⟩ := node
  unfold removeTaint
  simp only [taintExists_eq_any, deleteTaint, deleteTaintLoop_eq]
  cases taints with
  | nil => simp
  | cons x rest =>
    have hlen : ((x :: rest).length == 0) = false := rfl
    simp only [hlen]
    cases hany : (x :: rest).any (fun x => t.MatchTaint x)
    · have hf : (x :: rest).filter (fun x => !t.MatchTaint x) = x :: rest := by
        rw [List.filter_eq_self]
        intro a ha
        have := List.any_eq_false.1 hany a ha
        simpa using this
      simp [hf]
    · simp

theorem filter_replace_matching (t : Taint) (l : List Taint) :
    (l.map (fun x => if t.MatchTaint x then t else x)).filter (fun x => !t.MatchTaint x)
      = l.filter (fun x => !t.MatchTaint x) := by
  induction l with
  | nil => simp
  | cons x rest ih =>
    cases hm : t.MatchTaint x <;> simp [List.filter_cons, hm, MatchTaint_self, ih]

theorem removeTaint_addOrUpdateTaint (node : Node) (t : Taint) :
    (removeTaint (addOrUpdateTaint node t).1 t).1
      = { node with Taints := node.Taints.filter (fun x => !t.MatchTaint x) } := by
  by_cases h : t ∈ node.Taints
  · rw [addOrUpdateTaint_mem node t h, removeTaint_eq]
  · rw [addOrUpdateTaint_not_mem node t h, removeTaint_eq]
    cases hany : node.Taints.any (fun x => t.MatchTaint x)
    · simp [List.filter_append, List.filter_cons, MatchTaint_self, filter_replace_matching]
    · simp [filter_replace_matching]

theorem lookup_map_assign (m : StringMap) (k v : String)
    (h : m.any (fun e => e.1 == k) = true) :
    (m.map (fun e => if e.1 == k then (k, v) else e)).lookup k = some v := by
  induction m with
  | nil => simp at h
  | cons e rest ih =>
    rw [List.map_cons]
    by_cases he : e.1 = k
    · have hif : (if (e.1 == k) = true then (k, v) else e) = (k, v) := by simp [he]
      rw [hif, List.lookup_cons]
      simp
    · have hif : (if (e.1 == k) = true then (k, v) else e) = e := by simp [he]
      have hr : rest.any (fun e => e.1 == k) = true := by
        simpa [he] using h
      have hk : (k == e.1) = false := by
        simpa using fun h' => he h'.symm
      obtain ⟨a, b⟩ := e
      rw [hif, List.lookup_cons, hk]
      exact ih hr

theorem lookup_append_assign (m : StringMap) (k v : String)
    (h : m.any (fun e => e.1 == k) = false) :
    (m ++ [(k, v)]).lookup k = some v := by
  induction m with
  | nil => simp [List.lookup_cons]
  | cons e rest ih =>
    have he : ¬ e.1 = k := by
      intro he
      simp [he] at h
    have hr : rest.any (fun e => e.1 == k) = false := by
      simpa [he] using h
    have hk : (k == e.1) = false := by
      simpa using fun h' => he h'.symm
    obtain ⟨a, b⟩ := e
    rw [List.cons_append, List.lookup_cons, hk]
    exact ih hr

theorem lookup_mapAssign (m : StringMap) (k v : String) :
    (mapAssign m k v).lookup k = some v := by
  unfold mapAssign
  cases h : m.any (fun e => e.1 == k)
  · simpa using lookup_append_assign m k v h
  · simpa using lookup_map_assign m k v h

theorem stuckHandler_found_evicts :
    ((stuckHandler GetResult.found (1 * Second)).EvictPods 1 testExclude (30 * Second) testPods).2
      = ([Call.list "localhost",
          Call.event { Name := "foo", Namespace := "default", NodeName := "localhost" }
            "NodeTermination",
          Call.delete "default" "foo" 29 none,
          Call.get "default" "foo",
          Call.get "default" "foo",
          Call.event { Name := "bar", Namespace := "kube-system", NodeName := "localhost" }
            "NodeTermination",
          Call.delete "kube-system" "bar" 1 none,
          Call.get "kube-system" "bar",
          Call.get "kube-system" "bar"],
         Progress.returned none) := by
  simp only [podEvictionHandler.EvictPods, stuckHandler, regularGracePeriod_30_1,
    systemGracePeriod_whole]
  decide

theorem stuckHandler_failed_evicts :
    ((stuckHandler (GetResult.failed "unavailable") (1 * Second)).EvictPods 1 testExclude
        (30 * Second) testPods).2
      = ([Call.list "localhost",
          Call.event { Name := "foo", Namespace := "default", NodeName := "localhost" }
            "NodeTermination",
          Call.delete "default" "foo" 29 none,
          Call.get "default" "foo",
          Call.event { Name := "bar", Namespace := "kube-system", NodeName := "localhost" }
            "NodeTermination",
          Call.delete "kube-system" "bar" 1 none,
          Call.get "kube-system" "bar"],
         Progress.returned none) := by
  simp only [podEvictionHandler.EvictPods, stuckHandler, regularGracePeriod_30_1,
    systemGracePeriod_whole]
  decide

theorem Seconds_eq (d : Int) : Seconds d = (d : ℚ) / 1000000000 := by
  have h := Int.tdiv_add_tmod d Second
  have hq : ((Second * Int.tdiv d Second + Int.tmod d Second : Int) : ℚ) = (d : ℚ) := by
    rw [h]
  unfold Seconds
  rw [← hq]
  unfold Second
  push_cast
  ring

theorem Seconds_ge_120 (d : Int) : Seconds d ≥ 120 ↔ d ≥ 120 * Second := by
  rw [Seconds_eq, ge_iff_le, le_div_iff₀ (by norm_num : (0 : ℚ) < 1000000000)]
  unfold Second
  constructor
  · intro h
    have h' : ((120 * 1000000000 : Int) : ℚ) ≤ (d : ℚ) := by push_cast; linarith
    exact Int.cast_le.1 h'
  · intro h
    have h' : ((120 * 1000000000 : Int) : ℚ) ≤ (d : ℚ) := Int.cast_le.2 h
    push_cast at h'
    linarith

theorem TimeSub_of_range (t u : Int) (h1 : minInt64 ≤ t - u) (h2 : t - u ≤ maxInt64) :
    TimeSub t u = t - u := by
  unfold TimeSub
  rw [if_neg (by omega), if_neg (by omega)]

theorem TimeSub_range (t u : Int) : minInt64 ≤ TimeSub t u ∧ TimeSub t u ≤ maxInt64 := by
  unfold TimeSub minInt64 maxInt64
  split
  · omega
  · split <;> omega

/-- The timeout of `processNodeState` in terms of the duration returned by
`Time.Sub`. -/
theorem evictionTimeout_eq (terminationTime now : Time) :
    evictionTimeout terminationTime now
      = if terminationTime.Sub now ≥ 120 * Second then terminationTime.Sub now - 60 * Second
        else terminationTime.Sub now := by
  have hr : minInt64 ≤ terminationTime.Sub now ∧ terminationTime.Sub now ≤ maxInt64 :=
    TimeSub_range terminationTime.instant now.instant
  unfold evictionTimeout
  simp only [Seconds_ge_120]
  by_cases h : terminationTime.Sub now ≥ 120 * Second
  · rw [if_pos h, if_pos h]
    have h1 : minInt64 ≤ terminationTime.Sub now - Minute := by
      unfold Minute Second minInt64 at *
      omega
    have h2 : terminationTime.Sub now - Minute ≤ maxInt64 := by
      unfold Minute Second maxInt64 at *
      omega
    rw [wrapInt64_of_range _ h1 h2]
    rfl
  · rw [if_neg h, if_neg h]

/-- The four shapes of the trace of `processNodeState`. -/
theorem processNodeState_shapes {σ : Type} (n : nodeTerminationHandler σ) (s : σ) :
    (∃ r, (n.processNodeState s).2.1 = [Action.removeTaint r]) ∨
    (∃ e, (n.processNodeState s).2.1 = [Action.applyTaint (some e)]) ∨
    (∃ re, (n.processNodeState s).2.1
      = [Action.applyTaint none,
         Action.evictPods n.excludePods
           (evictionTimeout n.currentNodeState.TerminationTime (n.system.Now s)) re]) ∨
    (∃ rr, (n.processNodeState s).2.1
      = [Action.applyTaint none,
         Action.evictPods n.excludePods
           (evictionTimeout n.currentNodeState.TerminationTime (n.system.Now s)) none,
         Action.sync, Action.reboot rr]) := by
  unfold nodeTerminationHandler.processNodeState
  cases hp : n.currentNodeState.PendingTermination
  · exact Or.inl ⟨(n.taintHandler.RemoveTaint s).2, by simp⟩
  · simp only [Bool.not_true, Bool.false_eq_true, if_false]
    rcases ha : n.taintHandler.ApplyTaint s with ⟨s1, ra⟩
    cases ra with
    | some e => exact Or.inr (Or.inl ⟨e, rfl⟩)
    | none =>
      simp only
      rcases he : n.podEvictionHandler.EvictPods n.excludePods
        (evictionTimeout n.currentNodeState.TerminationTime (n.system.Now s)) s1 with ⟨s2, re⟩
      cases re with
      | some e => exact Or.inr (Or.inr (Or.inl ⟨some e, rfl⟩))
      | none =>
        simp only
        cases hr : n.currentNodeState.NeedsReboot
        · exact Or.inr (Or.inr (Or.inl ⟨none, by simp⟩))
        · exact Or.inr (Or.inr (Or.inr ⟨(n.system.Reboot (n.system.Sync s2)).2,
            by simp [nodeTerminationHandler.rebootNode]⟩))

theorem processNodeState_evictPods {σ : Type} (n : nodeTerminationHandler σ) (s : σ)
    (ex : StringMap) (t : Int) (r : Option Error)
    (h : Action.evictPods ex t r ∈ (n.processNodeState s).2.1) :
    ex = n.excludePods ∧
      t = evictionTimeout n.currentNodeState.TerminationTime (n.system.Now s) := by
  rcases processNodeState_shapes n s with ⟨r', h'⟩ | ⟨e, h'⟩ | ⟨re, h'⟩ | ⟨rr, h'⟩ <;>
    rw [h'] at h <;> simp at h
  · exact ⟨h.1, h.2.1⟩
  · exact ⟨h.1, h.2.1⟩

theorem processNodeState_ne_nil {σ : Type} (n : nodeTerminationHandler σ) (s : σ) :
    (n.processNodeState s).2.1 ≠ [] := by
  rcases processNodeState_shapes n s with ⟨r', h'⟩ | ⟨e, h'⟩ | ⟨re, h'⟩ | ⟨rr, h'⟩ <;>
    rw [h'] <;> simp

theorem evictionTimeout_hour :
    evictionTimeout (timeAt (3600 * Second)) (timeAt 0) = 3540 * Second := by
  rw [evictionTimeout_eq]
  decide

theorem evictionTimeout_30 :
    evictionTimeout (timeAt (30 * Second)) (timeAt 0) = 30 * Second := by
  rw [evictionTimeout_eq]
  decide

theorem evictionTimeout_saturated :
    evictionTimeout (timeAt (maxInt64 + 200 * Second)) (timeAt 0)
      = maxInt64 - 60 * Second := by
  rw [evictionTimeout_eq]
  decide

theorem exampleHandler_regular_hour :
    ((exampleHandler (regularState true (3600 * Second)) []).processNodeState
        { clock := 0, failing := none }).2
      = ([Action.applyTaint none, Action.evictPods testExclude (3540 * Second) none,
          Action.sync, Action.reboot none], none) := by
  have h : evictionTimeout
      (exampleHandler (regularState true (3600 * Second)) []).currentNodeState.TerminationTime
      ((exampleHandler (regularState true (3600 * Second)) []).system.Now
        { clock := 0, failing := none }) = 3540 * Second := evictionTimeout_hour
  simp only [nodeTerminationHandler.processNodeState, h]
  decide

theorem exampleHandler_preemptible_30 :
    ((exampleHandler (preemptibleState true (30 * Second)) []).processNodeState
        { clock := 0, failing := none }).2
      = ([Action.applyTaint none, Action.evictPods testExclude (30 * Second) none], none) := by
  have h : evictionTimeout
      (exampleHandler (preemptibleState true (30 * Second)) []).currentNodeState.TerminationTime
      ((exampleHandler (preemptibleState true (30 * Second)) []).system.Now
        { clock := 0, failing := none }) = 30 * Second := evictionTimeout_30
  simp only [nodeTerminationHandler.processNodeState, h]
  decide

theorem exampleHandler_saturated :
    ((exampleHandler (regularState true (maxInt64 + 200 * Second)) []).processNodeState
        { clock := 0, failing := none }).2
      = ([Action.applyTaint none, Action.evictPods testExclude (maxInt64 - 60 * Second) none,
          Action.sync, Action.reboot none], none) := by
  have h : evictionTimeout
      (exampleHandler (regularState true (maxInt64 + 200 * Second)) []).currentNodeState.TerminationTime
      ((exampleHandler (regularState true (maxInt64 + 200 * Second)) []).system.Now
        { clock := 0, failing := none }) = maxInt64 - 60 * Second := evictionTimeout_saturated
  simp only [nodeTerminationHandler.processNodeState, h]
  decide

theorem MatchTaint_iff (t x : Taint) :
    t.MatchTaint x = true ↔ x.Key = t.Key ∧ x.Effect = t.Effect := by
  unfold Taint.MatchTaint
  simp only [Bool.and_eq_true, beq_iff_eq]
  constructor <;> rintro ⟨h1, h2⟩ <;> exact ⟨h1.symm, h2.symm⟩

theorem handleUpdate_same {σ : Type} (n : nodeTerminationHandler σ) (s : σ) :
    n.handleUpdate n.currentNodeState s = (n, s, [], none) := by
  unfold nodeTerminationHandler.handleUpdate
  simp

theorem ExponentialBackoff_first {σ : Type} (sleep : Nat → σ → σ)
    (condition : σ → σ × List Action × Bool × Option Error) (steps : Nat) (s : σ) :
    ∃ rest, (ExponentialBackoff sleep condition (steps + 1) 0 s).2.1
      = (condition s).2.1 ++ rest := by
  unfold ExponentialBackoff
  simp only [bne_self_eq_false, Bool.false_eq_true, if_false]
  rcases hc : condition s with ⟨s1, tr, ok, err⟩
  cases err with
  | some e => exact ⟨[], by simp⟩
  | none =>
    cases ok with
    | true => exact ⟨[], by simp⟩
    | false =>
      simp only
      rcases ExponentialBackoff sleep condition steps (0 + 1) s1 with ⟨s2, tr2, res2⟩
      exact ⟨tr2, rfl⟩

theorem splitChars_no_sep (sep : Char) (a : List Char) (h : sep ∉ a) :
    splitChars sep a = [a] := by
  induction a with
  | nil => rfl
  | cons c cs ih =>
    have hc : ¬ c = sep := fun e => h (by simp [e])
    have hcs : sep ∉ cs := fun e => h (List.mem_cons_of_mem _ e)
    unfold splitChars
    rw [if_neg hc, ih hcs]

theorem splitChars_append (sep : Char) (a b : List Char) (h : sep ∉ a) :
    splitChars sep (a ++ sep :: b) = a :: splitChars sep b := by
  induction a with
  | nil =>
    rw [List.nil_append]
    conv => lhs; unfold splitChars
    rw [if_pos rfl]
  | cons c cs ih =>
    have hc : ¬ c = sep := fun e => h (by simp [e])
    have hcs : sep ∉ cs := fun e => h (List.mem_cons_of_mem _ e)
    rw [List.cons_append]
    conv => lhs; unfold splitChars
    rw [if_neg hc, ih hcs]

theorem renderTuple_data (p : String × String) :
    (renderTuple p).data = p.1.data ++ ':' :: p.2.data := by
  unfold renderTuple
  rw [String.data_append, String.data_append]
  simp

theorem Split_renderTuple (p : String × String) (h : wellFormed p) :
    Split (renderTuple p) ':' = [p.1, p.2] := by
  unfold Split
  rw [renderTuple_data, splitChars_append ':' _ _ h.2.1, splitChars_no_sep ':' _ h.2.2.2]
  rfl

theorem renderTuple_no_comma (p : String × String) (h : wellFormed p) :
    ',' ∉ (renderTuple p).data := by
  rw [renderTuple_data]
  intro hm
  rcases List.mem_append.1 hm with hm | hm
  · exact h.1 hm
  · rcases List.mem_cons.1 hm with hm | hm
    · exact absurd hm (by decide)
    · exact h.2.2.1 hm

theorem renderFlag_cons_cons (p q : String × String) (rest : List (String × String)) :
    (renderFlag (p :: q :: rest)).data
      = (renderTuple p).data ++ ',' :: (renderFlag (q :: rest)).data := by
  show (p.1 ++ ":" ++ p.2 ++ "," ++ renderFlag (q :: rest)).data = _
  rw [String.data_append, String.data_append, List.append_assoc]
  rfl

theorem Split_renderFlag (pairs : List (String × String)) (hne : pairs ≠ [])
    (h : ∀ p ∈ pairs, wellFormed p) :
    Split (renderFlag pairs) ',' = pairs.map renderTuple := by
  induction pairs with
  | nil => exact absurd rfl hne
  | cons p rest ih =>
    cases rest with
    | nil =>
      unfold Split
      show List.map String.mk (splitChars ',' (renderTuple p).data) = _
      rw [splitChars_no_sep ',' _ (renderTuple_no_comma p (h p (by simp)))]
      rfl
    | cons q rest =>
      have ih' := ih (by simp) (fun x hx => h x (List.mem_cons_of_mem _ hx))
      unfold Split at ih' ⊢
      rw [renderFlag_cons_cons,
        splitChars_append ',' _ _ (renderTuple_no_comma p (h p (by simp)))]
      rw [List.map_cons, ih']
      rfl

theorem processExcludePodsLoop_rendered (flag : String) (pairs : List (String × String))
    (ret : StringMap) (h : ∀ p ∈ pairs, wellFormed p) :
    processExcludePodsLoop flag (pairs.map renderTuple) ret
      = Except.ok (assignAll ret pairs) := by
  induction pairs generalizing ret with
  | nil => rfl
  | cons p rest ih =>
    rw [List.map_cons]
    unfold processExcludePodsLoop
    rw [Split_renderTuple p (h p (by simp))]
    simp only
    rw [ih _ (fun x hx => h x (List.mem_cons_of_mem _ hx))]
    rfl

theorem lookup_mapAssign_ne (m : StringMap) (k v k' : String) (hne : k' ≠ k) :
    (mapAssign m k v).lookup k' = m.lookup k' := by
  unfold mapAssign
  have hmap : (m.map (fun e => if e.1 == k then (k, v) else e)).lookup k' = m.lookup k' := by
    induction m with
    | nil => rfl
    | cons e rest ih =>
      obtain ⟨a, b⟩ := e
      rw [List.map_cons]
      by_cases he : a = k
      · have hif : (if ((a, b).1 == k) = true then (k, v) else (a, b)) = (k, v) := by
          simp [he]
        have hk : (k' == k) = false := by simpa using hne
        have hk' : (k' == a) = false := by rw [he]; exact hk
        rw [hif, List.lookup_cons, List.lookup_cons, hk, hk']
        exact ih
      · have hif : (if ((a, b).1 == k) = true then (k, v) else (a, b)) = (a, b) := by
          simp [he]
        rw [hif, List.lookup_cons, List.lookup_cons, ih]
  have happ : (m ++ [(k, v)]).lookup k' = m.lookup k' := by
    clear hmap
    induction m with
    | nil =>
      have hk : (k' == k) = false := by simpa using hne
      rw [List.nil_append, List.lookup_cons, hk]
    | cons e rest ih =>
      obtain ⟨a, b⟩ := e
      rw [List.cons_append, List.lookup_cons, List.lookup_cons, ih]
  split
  · exact hmap
  · exact happ

theorem lookup_assignAll_other (post : List (String × String)) (m : StringMap) (name : String)
    (h : ∀ p ∈ post, p.1 ≠ name) :
    (assignAll m post).lookup name = m.lookup name := by
  induction post generalizing m with
  | nil => rfl
  | cons p rest ih =>
    unfold assignAll
    rw [List.foldl_cons]
    have := ih (mapAssign m p.1 p.2) (fun x hx => h x (List.mem_cons_of_mem _ hx))
    unfold assignAll at this
    rw [this, lookup_mapAssign_ne m p.1 p.2 name (fun e => h p (by simp) e.symm)]

theorem lookup_assignAll_last (pre post : List (String × String)) (name ns : String)
    (h : ∀ p ∈ post, p.1 ≠ name) :
    (assignAll [] (pre ++ (name, ns) :: post)).lookup name = some ns := by
  have hsplit : assignAll [] (pre ++ (name, ns) :: post)
      = assignAll (mapAssign (assignAll [] pre) name ns) post := by
    unfold assignAll
    rw [List.foldl_append, List.foldl_cons]
  rw [hsplit, lookup_assignAll_other post _ name h, lookup_mapAssign]

theorem sameName_evicts :
    (testHandler (1 * Second)).EvictPods 1 [("foo", "b")] (30 * Second) sameNamePods
      = ([{ Name := "foo", Namespace := "b", NodeName := "localhost" }],
         [Call.list "localhost",
          Call.event { Name := "foo", Namespace := "a", NodeName := "localhost" }
            "NodeTermination",
          Call.delete "a" "foo" 29 none,
          Call.get "a" "foo"],
         Progress.returned none) := by
  simp only [podEvictionHandler.EvictPods, testHandler, regularGracePeriod_30_1,
    systemGracePeriod_whole]
  decide

theorem handleUpdate_handler {σ : Type} (n : nodeTerminationHandler σ)
    (state : NodeTerminationState) (s : σ) (h : state ≠ n.currentNodeState) :
    (n.handleUpdate state s).1 = { n with currentNodeState := state } := by
  unfold nodeTerminationHandler.handleUpdate
  rw [if_pos h]

/-- A first attempt that is done ends `wait.ExponentialBackoff`. -/
theorem ExponentialBackoff_done {σ : Type} (sleep : Nat → σ → σ)
    (condition : σ → σ × List Action × Bool × Option Error) (steps : Nat) (s : σ)
    (h : (condition s).2.2 = (true, none)) :
    ExponentialBackoff sleep condition (steps + 1) 0 s
      = ((condition s).1, (condition s).2.1, none) := by
  unfold ExponentialBackoff
  simp only [bne_self_eq_false, Bool.false_eq_true, if_false]
  rcases hc : condition s with ⟨s1, tr, ok, err⟩
  rw [hc] at h
  simp only [Prod.mk.injEq] at h
  obtain ⟨hok, herr⟩ := h
  subst hok
  subst herr
  rfl

/-- When the condition never reports an error, the only error of
`wait.ExponentialBackoff` is `ErrWaitTimeout`. -/
theorem ExponentialBackoff_error {σ : Type} (sleep : Nat → σ → σ)
    (condition : σ → σ × List Action × Bool × Option Error)
    (hc : ∀ s, (condition s).2.2.2 = none) (steps i : Nat) (s : σ) :
    (ExponentialBackoff sleep condition steps i s).2.2 = none ∨
      (ExponentialBackoff sleep condition steps i s).2.2 = some ErrWaitTimeout := by
  induction steps generalizing i s with
  | zero => exact Or.inr rfl
  | succ k ih =>
    unfold ExponentialBackoff
    have h := hc (if (i != 0) = true then sleep i s else s)
    rcases hcs : condition (if (i != 0) = true then sleep i s else s) with ⟨s1, tr, ok, err⟩
    rw [hcs] at h
    simp only at h
    subst h
    cases ok with
    | true => exact Or.inl rfl
    | false =>
      simpa using ih (i + 1) s1

theorem deleteRequests_replicate_get (k : Nat) (ns name : String) :
    deleteRequests (List.replicate k (Call.get ns name)) = [] := by
  induction k with
  | zero => rfl
  | succ k ih => simpa [List.replicate_succ, deleteRequests] using ih

/-! ## Claims -/

/-- C1: on a regular instance (`NeedsReboot = true`), after the callbacks
`maintenance-event = TERMINATE_ON_HOST_MAINTENANCE` and then `preempted = FALSE`,
the source reports `PendingTermination = false`, although the most recent
`maintenance-event` value is still `TERMINATE_ON_HOST_MAINTENANCE` and the rule
of the specification gives `true`. -/
theorem C1_callback_on_other_key_clears_pending :
    ((regularSource.deliverAll noticeThenPreemptedFalse).GetState).PendingTermination = false ∧
    ((regularSource.deliverAll (noticeThenPreemptedFalse.take 1)).GetState).PendingTermination
      = true ∧
    mostRecentValue MetadataKey.maintenanceEvent noticeThenPreemptedFalse
      = some maintenanceEventTerminate ∧
    specPendingTermination regularSource.state.NeedsReboot noticeThenPreemptedFalse = true := by
  decide

/-- C2: when `EvictPods` returns `nil`, the pods for which it issued a delete
request are exactly the listed pods whose `(name, namespace)` is not an entry of
the exclude map (as a list up to order, so with multiplicity), and no delete
request was issued for a `(name, namespace)` that is an entry of the map. -/
theorem C2_evict_deletes_exactly_not_excluded {σ : Type} (p : podEvictionHandler σ)
    (fuel : Nat) (E : StringMap) (timeout : Int) (s : σ)
    (h : (p.EvictPods fuel E timeout s).2.2 = Progress.returned none) :
    ∃ s1 items, p.client.List s p.node = (s1, Except.ok items) ∧
      (deletedPods (p.EvictPods fuel E timeout s).2.1).Perm
        ((items.filter (fun pod => !(E.lookup pod.Name == some pod.Namespace))).map
          Pod.identity) ∧
      (∀ name ns, E.lookup name = some ns →
        (name, ns) ∉ deletedPods (p.EvictPods fuel E timeout s).2.1) := by
  obtain ⟨s1, items, hl, htr⟩ := EvictPods_ok p fuel E timeout s h
  have hdel : deletedPods (p.EvictPods fuel E timeout s).2.1
      = ((separatePods E items).2 ++ (separatePods E items).1).map Pod.identity := by
    unfold deletedPods
    rw [htr]
    simp only [List.map_append, List.map_map]
    rfl
  refine ⟨s1, items, hl, ?_, ?_⟩
  · rw [hdel, separatePods_eq]
    exact (filter_split_perm items (fun pod => !excluded E pod)
      (fun pod => pod.Namespace == systemNamespace)).map Pod.identity
  · intro name ns hE hmem
    rw [hdel] at hmem
    obtain ⟨pod, hpod, hid⟩ := List.mem_map.1 hmem
    have hex : excluded E pod = false := by
      rcases List.mem_append.1 hpod with h1 | h1
      · exact (mem_separatePods_regular E items pod h1).2.1
      · exact (mem_separatePods_system E items pod h1).2.1
    simp only [Pod.identity, Prod.mk.injEq] at hid
    rw [← hid.1, ← hid.2] at hE
    simp [excluded, hE] at hex

/-- C2 on the pods of `TestEvictions` (`foo/default`, `bar/kube-system`,
`baz/kube-system`, with `baz` excluded): `EvictPods` returns `nil`, only `baz`
remains, and the deleted pods are the two that are not excluded. -/
theorem C2_witness :
    ((testHandler (1 * Second)).EvictPods 1 testExclude (30 * Second) testPods).2.2
      = Progress.returned none ∧
    ((testHandler (1 * Second)).EvictPods 1 testExclude (30 * Second) testPods).1
      = [{ Name := "baz", Namespace := "kube-system", NodeName := "localhost" }] ∧
    ∃ s1 items, (testHandler (1 * Second)).client.List testPods (testHandler (1 * Second)).node
        = (s1, Except.ok items) ∧
      (deletedPods ((testHandler (1 * Second)).EvictPods 1 testExclude (30 * Second) testPods).2.1).Perm
        ((items.filter (fun pod => !(testExclude.lookup pod.Name == some pod.Namespace))).map
          Pod.identity) ∧
      (∀ name ns, testExclude.lookup name = some ns →
        (name, ns) ∉
          deletedPods ((testHandler (1 * Second)).EvictPods 1 testExclude (30 * Second) testPods).2.1) :=
  ⟨by rw [testHandler_evicts], by rw [testHandler_evicts],
    C2_evict_deletes_exactly_not_excluded (testHandler (1 * Second)) 1 testExclude (30 * Second)
      testPods (by rw [testHandler_evicts])⟩

/-- C3: in the sequence of delete requests issued by one call of `EvictPods`,
every request for a regular pod (namespace other than `kube-system`) stands
at a strictly smaller position than every request for a system pod (namespace
`kube-system`). -/
theorem C3_regular_deletes_before_system_deletes {σ : Type} (p : podEvictionHandler σ)
    (fuel : Nat) (E : StringMap) (timeout : Int) (s : σ) (i j : Nat)
    (r1 r2 : String × String × Int × Option Error)
    (h1 : (deleteRequests (p.EvictPods fuel E timeout s).2.1)[i]? = some r1)
    (h2 : (deleteRequests (p.EvictPods fuel E timeout s).2.1)[j]? = some r2)
    (hreg : r1.1 ≠ systemNamespace) (hsys : r2.1 = systemNamespace) : i < j := by
  obtain ⟨A, B, htr, hA, hB⟩ := EvictPods_blocks p fuel E timeout s
  rw [htr] at h1 h2
  have hi : i < A.length := by
    by_contra hge
    rw [List.getElem?_append_right (Nat.le_of_not_lt hge)] at h1
    exact hreg (hB r1 (List.getElem?_mem h1)).1
  have hj : A.length ≤ j := by
    by_contra hlt
    rw [List.getElem?_append_left (Nat.lt_of_not_le hlt)] at h2
    exact (hA r2 (List.getElem?_mem h2)).1 hsys
  omega

/-- C3 on the pods of `TestEvictions`: the request for `foo/default` is at
position 0 and the request for `bar/kube-system` at position 1. -/
theorem C3_witness :
    (deleteRequests ((testHandler (1 * Second)).EvictPods 1 testExclude (30 * Second)
        testPods).2.1)[0]? = some ("default", "foo", 29, none) ∧
    (deleteRequests ((testHandler (1 * Second)).EvictPods 1 testExclude (30 * Second)
        testPods).2.1)[1]? = some ("kube-system", "bar", 1, none) ∧
    0 < 1 :=
  ⟨by rw [testHandler_evicts]; decide, by rw [testHandler_evicts]; decide,
    C3_regular_deletes_before_system_deletes (testHandler (1 * Second)) 1 testExclude
      (30 * Second) testPods 0 1 ("default", "foo", 29, none) ("kube-system", "bar", 1, none)
      (by rw [testHandler_evicts]; decide) (by rw [testHandler_evicts]; decide)
      (by decide) (by decide)⟩

/-- C4, as stated, fails: with `T = 1 s` and `S = 5000000000 s` (both are
`time.Duration` values, and `T < 2*S`), the 64-bit product `2*S` wraps to a
negative number, the test `timeout >= 2*S` succeeds, and the regular pod `foo`
is deleted with grace period `1 - 5000000000` seconds, not 0. -/
theorem C4_counterexample :
    minInt64 ≤ 5000000000 * Second ∧ 5000000000 * Second ≤ maxInt64 ∧
    (1 : Int) < 2 * 5000000000 ∧
    deleteRequests ((testHandler (5000000000 * Second)).EvictPods 1 [] (1 * Second) testPods).2.1
      = [("default", "foo", -4999999999, none), ("kube-system", "bar", 5000000000, none),
         ("kube-system", "baz", 5000000000, none)] :=
  ⟨by decide, by decide, by decide, testHandler_evicts_wrapped⟩

/-- C4, amended: for a total timeout of `t` seconds and a system-pod grace
period of `sec` seconds such that `2 * sec` seconds is a `time.Duration` (the
product does not leave the 64-bit range), every delete request of `EvictPods`
for a regular pod has grace period `0` when `t < 2 * sec` and `t - sec` when
`t ≥ 2 * sec`, and every delete request for a system pod has grace period
`sec`. -/
theorem C4_grace_periods {σ : Type} (client : PodClient σ) (node : String) (fuel : Nat)
    (E : StringMap) (s : σ) (t sec : Int) (h1 : minInt64 ≤ 2 * (sec * Second))
    (h2 : 2 * (sec * Second) ≤ maxInt64) :
    ∀ r ∈ deleteRequests
        ((podEvictionHandler.mk client node (sec * Second)).EvictPods fuel E (t * Second)
          s).2.1,
      (r.1 ≠ systemNamespace → r.2.2.1 = if t < 2 * sec then 0 else t - sec) ∧
      (r.1 = systemNamespace → r.2.2.1 = sec) := by
  intro r hr
  obtain ⟨A, B, htr, hA, hB⟩ :=
    EvictPods_blocks (podEvictionHandler.mk client node (sec * Second)) fuel E (t * Second) s
  rw [htr] at hr
  rcases List.mem_append.1 hr with hr | hr
  · refine ⟨fun _ => ?_, fun hsys => absurd hsys (hA r hr).1⟩
    rw [(hA r hr).2]
    exact regularGracePeriod_whole t sec h1 h2
  · refine ⟨fun hreg => absurd (hB r hr).1 hreg, fun _ => ?_⟩
    rw [(hB r hr).2]
    exact systemGracePeriod_whole sec

/-- C4 at `T = 30 s, S = 1 s` (grace periods 29 s and 1 s) and at
`T = 1 s, S = 30 s` (grace periods 0 s and 30 s), on the pods of
`TestEvictions`. -/
theorem C4_witness :
    (minInt64 ≤ 2 * (1 * Second) ∧ 2 * (1 * Second) ≤ maxInt64 ∧
      deleteRequests ((testHandler (1 * Second)).EvictPods 1 testExclude (30 * Second)
          testPods).2.1
        = [("default", "foo", 29, none), ("kube-system", "bar", 1, none)] ∧
      ∀ r ∈ deleteRequests
          ((podEvictionHandler.mk fakeClientset "localhost" (1 * Second)).EvictPods 1 testExclude
            (30 * Second) testPods).2.1,
        (r.1 ≠ systemNamespace → r.2.2.1 = if (30 : Int) < 2 * 1 then 0 else 30 - 1) ∧
        (r.1 = systemNamespace → r.2.2.1 = 1)) ∧
    (minInt64 ≤ 2 * (30 * Second) ∧ 2 * (30 * Second) ≤ maxInt64 ∧
      deleteRequests ((testHandler (30 * Second)).EvictPods 1 [] (1 * Second) testPods).2.1
        = [("default", "foo", 0, none), ("kube-system", "bar", 30, none),
           ("kube-system", "baz", 30, none)] ∧
      ∀ r ∈ deleteRequests
          ((podEvictionHandler.mk fakeClientset "localhost" (30 * Second)).EvictPods 1 []
            (1 * Second) testPods).2.1,
        (r.1 ≠ systemNamespace → r.2.2.1 = if (1 : Int) < 2 * 30 then 0 else 1 - 30) ∧
        (r.1 = systemNamespace → r.2.2.1 = 30)) :=
  ⟨⟨by decide, by decide, by rw [testHandler_evicts]; decide,
      C4_grace_periods fakeClientset "localhost" 1 testExclude testPods 30 1
        (by decide) (by decide)⟩,
    ⟨by decide, by decide, testHandler_evicts_tight,
      C4_grace_periods fakeClientset "localhost" 1 [] testPods 1 30 (by decide) (by decide)⟩⟩

/-- C5: for every node and configured taint, the taint list of the node
returned by `addOrUpdateTaint` contains a taint with the key, the value and the
effect of the configured taint, whether `updated` is true or false. -/
theorem C5_apply_contains_configured_taint (node : Node) (t : Taint) :
    ∃ x ∈ (addOrUpdateTaint node t).1.Taints,
      x.Key = t.Key ∧ x.Value = t.Value ∧ x.Effect = t.Effect :=
  ⟨t, mem_addOrUpdateTaint node t, rfl, rfl, rfl⟩

/-- C6: with the taint backend, `addOrUpdateTaint` applied to the result of a
first `addOrUpdateTaint` reports `updated = false` and returns that node
unchanged; an `ApplyTaint` that reads such a node makes no call but the read
(no node write, no event) and returns `nil`; and one `ApplyTaint` records at
most one event. -/
theorem C6_apply_idempotent (node : Node) (t : Taint) :
    addOrUpdateTaint (addOrUpdateTaint node t).1 t = ((addOrUpdateTaint node t).1, false) ∧
    (∀ {σ : Type} (n : nodeTaintHandler σ) (s s1 : σ), n.annotation = "" → n.taint = t →
      n.client.Get s n.node = (s1, Except.ok (addOrUpdateTaint node t).1) →
      n.ApplyTaint s = (s1, [NodeCall.get n.node], Outcome.returned none)) ∧
    (∀ {σ : Type} (n : nodeTaintHandler σ) (s : σ), countEvents (n.ApplyTaint s).2.1 ≤ 1) := by
  have hidem := addOrUpdateTaint_mem (addOrUpdateTaint node t).1 t (mem_addOrUpdateTaint node t)
  refine ⟨hidem, ?_, ?_⟩
  · intro σ n s s1 hann ht hget
    unfold nodeTaintHandler.ApplyTaint
    rw [hget]
    simp only [hann, ht, hidem]
    simp
  · intro σ n s
    unfold nodeTaintHandler.ApplyTaint
    rcases n.client.Get s n.node with ⟨s1, res⟩
    cases res with
    | error e => simp [countEvents]
    | ok nd =>
      simp only
      split
      · cases nd.Annotations with
        | none => simp [countEvents]
        | some m =>
          simp only
          rcases n.client.Update s1 _ with ⟨s2, r⟩
          cases r <;> simp [countEvents]
      · rcases addOrUpdateTaint nd n.taint with ⟨nd', u⟩
        cases u with
        | false => simp [countEvents]
        | true =>
          simp only
          rcases n.client.Update s1 nd' with ⟨s2, r⟩
          cases r <;> simp [countEvents]

/-- C6 on a node that carries a stale taint with the configured key and
effect: the first `ApplyTaint` writes the node and records one event, the
second, run on the cluster state left by the first, only reads the node. -/
theorem C6_witness :
    (taintBackend.ApplyTaint (exampleNode none [staleTaint, otherTaint])).1
      = (addOrUpdateTaint (exampleNode none [staleTaint, otherTaint]) exampleTaint).1 ∧
    countEvents (taintBackend.ApplyTaint (exampleNode none [staleTaint, otherTaint])).2.1 = 1 ∧
    taintBackend.ApplyTaint
        (addOrUpdateTaint (exampleNode none [staleTaint, otherTaint]) exampleTaint).1
      = ((addOrUpdateTaint (exampleNode none [staleTaint, otherTaint]) exampleTaint).1,
         [NodeCall.get taintBackend.node], Outcome.returned none) :=
  ⟨by decide, by decide,
    (C6_apply_idempotent (exampleNode none [staleTaint, otherTaint]) exampleTaint).2.1
      taintBackend _ _ (by decide) (by decide) rfl⟩

/-- C7, as stated, fails: on a node that already carries the configured taint,
`addOrUpdateTaint` changes nothing and `removeTaint` then removes the taint, so
the taints matching the configured key and effect are `[exampleTaint]` before
and none after. -/
theorem C7_counterexample :
    (exampleNode none [exampleTaint, otherTaint]).Taints.filter
        (fun x => exampleTaint.MatchTaint x) = [exampleTaint] ∧
    (removeTaint (addOrUpdateTaint (exampleNode none [exampleTaint, otherTaint])
        exampleTaint).1 exampleTaint).1.Taints.filter
        (fun x => exampleTaint.MatchTaint x) = [] := by
  decide

/-- C7, amended: when no taint of the node matches the configured key and
effect before `addOrUpdateTaint`, then `removeTaint` applied to the result of
`addOrUpdateTaint` returns the node as it was (the same taints in the same
order), so the taints matching the configured key and effect are the same
before and after (none). -/
theorem C7_apply_remove_restores (node : Node) (t : Taint)
    (h : ∀ x ∈ node.Taints, t.MatchTaint x = false) :
    (removeTaint (addOrUpdateTaint node t).1 t).1 = node ∧
    (removeTaint (addOrUpdateTaint node t).1 t).1.Taints.filter (fun x => t.MatchTaint x)
      = node.Taints.filter (fun x => t.MatchTaint x) := by
  have hf : node.Taints.filter (fun x => !t.MatchTaint x) = node.Taints := by
    rw [List.filter_eq_self]
    intro a ha
    simp [h a ha]
  have hnode : (removeTaint (addOrUpdateTaint node t).1 t).1 = node := by
    rw [removeTaint_addOrUpdateTaint, hf]
  exact ⟨hnode, by rw [hnode]⟩

/-- C7, amended, on a node whose only taint has another key. -/
theorem C7_witness :
    (∀ x ∈ (exampleNode none [otherTaint]).Taints, exampleTaint.MatchTaint x = false) ∧
    (removeTaint (addOrUpdateTaint (exampleNode none [otherTaint]) exampleTaint).1
        exampleTaint).1 = exampleNode none [otherTaint] :=
  ⟨by decide,
    (C7_apply_remove_restores (exampleNode none [otherTaint]) exampleTaint (by decide)).1⟩

/-- C8: the taint list returned by `removeTaint` contains no taint with the
key and effect of the configured taint (whatever its value), it is the input
list with exactly those taints left out (the others in their original order),
and `updated` is true if and only if some taint of the input has the key and
effect of the configured taint. -/
theorem C8_removeTaint (node : Node) (t : Taint) :
    (∀ x ∈ (removeTaint node t).1.Taints, ¬ (x.Key = t.Key ∧ x.Effect = t.Effect)) ∧
    (removeTaint node t).1.Taints
      = node.Taints.filter (fun x => !(x.Key == t.Key && x.Effect == t.Effect)) ∧
    ((removeTaint node t).2 = true ↔
      ∃ x ∈ node.Taints, x.Key = t.Key ∧ x.Effect = t.Effect) := by
  have hm : ∀ x : Taint, t.MatchTaint x = (x.Key == t.Key && x.Effect == t.Effect) := by
    intro x
    rw [MatchTaint_comm]
    rfl
  have hfun : (fun x : Taint => !t.MatchTaint x)
      = (fun x : Taint => !(x.Key == t.Key && x.Effect == t.Effect)) := by
    funext x
    rw [hm]
  rw [removeTaint_eq]
  refine ⟨?_, ?_, ?_⟩
  · intro x hx hkey
    have hx' := (List.mem_filter.1 hx).2
    rw [hm] at hx'
    simp [hkey.1, hkey.2] at hx'
  · show node.Taints.filter (fun x => !t.MatchTaint x) = _
    rw [hfun]
  · show (node.Taints.any (fun x => t.MatchTaint x) = true ↔ _)
    rw [List.any_eq_true]
    constructor
    · rintro ⟨x, hx, hmx⟩
      rw [hm] at hmx
      exact ⟨x, hx, by simpa using hmx⟩
    · rintro ⟨x, hx, hk⟩
      exact ⟨x, hx, by rw [hm]; simp [hk.1, hk.2]⟩

/-- C9, as stated, fails: with the annotation backend, `ApplyTaint` on a node
whose annotation is already `"true"` writes the node and records the
`ImpendingNodeTermination` event, and `RemoveTaint` on a node whose annotation
is already `"false"` writes the node and records the
`NoImpendingNodeTermination` event. -/
theorem C9_counterexample :
    annotationBackend.ApplyTaint (exampleNode (some [("impending-termination", "true")]) [])
      = (exampleNode (some [("impending-termination", "true")]) [],
         [NodeCall.get "node-1",
          NodeCall.update (exampleNode (some [("impending-termination", "true")]) []) none,
          NodeCall.event (exampleNode (some [("impending-termination", "true")]) [])
            "Warning" "ImpendingNodeTermination"],
         Outcome.returned none) ∧
    annotationBackend.RemoveTaint (exampleNode (some [("impending-termination", "false")]) [])
      = (exampleNode (some [("impending-termination", "false")]) [],
         [NodeCall.get "node-1",
          NodeCall.update (exampleNode (some [("impending-termination", "false")]) []) none,
          NodeCall.event (exampleNode (some [("impending-termination", "false")]) [])
            "Normal" "NoImpendingNodeTermination"],
         Outcome.returned none) := by
  decide

/-- C9, amended: with the annotation backend, once the node is read and has an
annotation map, `ApplyTaint` sets the annotation to `"true"` and always issues
a node update with that node, whatever the current value of the annotation; it
records the `ImpendingNodeTermination` event exactly when the update is
accepted, and returns the answer of the update.  `RemoveTaint` does the same
with `"false"` and the `NoImpendingNodeTermination` event. -/
theorem C9_annotation_backend_writes {σ : Type} (n : nodeTaintHandler σ) (s s1 : σ)
    (node : Node) (m : StringMap) (hann : n.annotation ≠ "")
    (hget : n.client.Get s n.node = (s1, Except.ok node)) (hm : node.Annotations = some m) :
    (mapAssign m n.annotation "true").lookup n.annotation = some "true" ∧
    n.ApplyTaint s
      = ((n.client.Update s1
            { node with Annotations := some (mapAssign m n.annotation "true") }).1,
         NodeCall.get n.node ::
           NodeCall.update { node with Annotations := some (mapAssign m n.annotation "true") }
             (n.client.Update s1
               { node with Annotations := some (mapAssign m n.annotation "true") }).2 ::
           (if (n.client.Update s1
                 { node with Annotations := some (mapAssign m n.annotation "true") }).2 = none
            then [NodeCall.event
                    { node with Annotations := some (mapAssign m n.annotation "true") }
                    EventTypeWarning taintReason]
            else []),
         Outcome.returned (n.client.Update s1
            { node with Annotations := some (mapAssign m n.annotation "true") }).2) ∧
    (mapAssign m n.annotation "false").lookup n.annotation = some "false" ∧
    n.RemoveTaint s
      = ((n.client.Update s1
            { node with Annotations := some (mapAssign m n.annotation "false") }).1,
         NodeCall.get n.node ::
           NodeCall.update { node with Annotations := some (mapAssign m n.annotation "false") }
             (n.client.Update s1
               { node with Annotations := some (mapAssign m n.annotation "false") }).2 ::
           (if (n.client.Update s1
                 { node with Annotations := some (mapAssign m n.annotation "false") }).2 = none
            then [NodeCall.event
                    { node with Annotations := some (mapAssign m n.annotation "false") }
                    EventTypeNormal untaintReason]
            else []),
         Outcome.returned (n.client.Update s1
            { node with Annotations := some (mapAssign m n.annotation "false") }).2) := by
  have hne : (n.annotation != "") = true := by simpa using hann
  refine ⟨lookup_mapAssign _ _ _, ?_, lookup_mapAssign _ _ _, ?_⟩
  · unfold nodeTaintHandler.ApplyTaint
    rw [hget]
    simp only [hne, hm, if_true]
    rcases n.client.Update s1
      { node with Annotations := some (mapAssign m n.annotation "true") } with ⟨s2, r⟩
    cases r <;> simp
  · unfold nodeTaintHandler.RemoveTaint
    rw [hget]
    simp only [hne, hm, if_true]
    rcases n.client.Update s1
      { node with Annotations := some (mapAssign m n.annotation "false") } with ⟨s2, r⟩
    cases r <;> simp

/-- C9, amended, on a node whose annotation is `"false"`: `ApplyTaint` writes
the node with the annotation `"true"` and records the event. -/
theorem C9_witness :
    annotationBackend.annotation ≠ "" ∧
    annotationBackend.ApplyTaint (exampleNode (some [("impending-termination", "false")]) [])
      = (exampleNode (some [("impending-termination", "true")]) [],
         [NodeCall.get "node-1",
          NodeCall.update (exampleNode (some [("impending-termination", "true")]) []) none,
          NodeCall.event (exampleNode (some [("impending-termination", "true")]) [])
            "Warning" "ImpendingNodeTermination"],
         Outcome.returned none) :=
  ⟨by decide,
    (C9_annotation_backend_writes annotationBackend
      (exampleNode (some [("impending-termination", "false")]) [])
      (exampleNode (some [("impending-termination", "false")]) [])
      (exampleNode (some [("impending-termination", "false")]) [])
      [("impending-termination", "false")] (by decide) rfl (by decide)).2.1⟩

/-- C10 at the failing input: the node `localhost` runs the pods of
`TestEvictions`, the system-pod grace period is the default 30 s, the timeout is
30 s (a preemption notice), nothing is excluded, and the cluster accepts every
delete request but keeps answering `Get` with the pod (`stuckClientset`).  The
timeout is below twice the system-pod grace period, so the grace period of the
regular pods stays zero and `waitForPodNotFound` calls `wait.PollImmediate` with
a timeout of zero, which never times out.  The listing succeeds and the only
delete request issued, for `foo` in `default`, is accepted, yet after any number
of polls `EvictPods` has not returned: the trace ends in `fuel + 1` polls of
`foo`, and no delete request is issued for the system pods.  With a grace
period other than zero (system-pod grace period 1 s) the same cluster lets the
waits time out and `EvictPods` returns `nil`. -/
theorem C10_evict_never_returns (fuel : Nat) :
    regularGracePeriod (30 * Second) (30 * Second) = 0 ∧
    (stuckHandler GetResult.found (30 * Second)).client.List testPods "localhost"
      = (testPods, Except.ok testPods) ∧
    deleteRequests ((stuckHandler GetResult.found (30 * Second)).EvictPods fuel []
        (30 * Second) testPods).2.1
      = [("default", "foo", 0, none)] ∧
    ((stuckHandler GetResult.found (30 * Second)).EvictPods fuel [] (30 * Second) testPods).2.1
      = [Call.list "localhost",
         Call.event { Name := "foo", Namespace := "default", NodeName := "localhost" }
           "NodeTermination",
         Call.delete "default" "foo" 0 none] ++
          List.replicate (fuel + 1) (Call.get "default" "foo") ∧
    ((stuckHandler GetResult.found (30 * Second)).EvictPods fuel [] (30 * Second) testPods).2.2
      = Progress.polling ∧
    ((stuckHandler GetResult.found (1 * Second)).EvictPods 1 testExclude (30 * Second)
        testPods).2.2
      = Progress.returned none := by
  refine ⟨regularGracePeriod_30_30, rfl, ?_, ?_, ?_, ?_⟩
  · rw [stuckHandler_never_returns, deleteRequests_append, deleteRequests_replicate_get]
    rfl
  · rw [stuckHandler_never_returns]
  · rw [stuckHandler_never_returns]
  · exact congrArg Prod.snd stuckHandler_found_evicts

/-- C11: `processNodeState` performs exactly this sequence.  Without a pending
termination: `RemoveTaint` only, whose result is returned.  With a pending
termination: `ApplyTaint`; if it fails, its error is returned and nothing
follows; otherwise `EvictPods` with the exclude map and the timeout; if it
fails, its error is returned and nothing follows; otherwise, on a node that
does not need a reboot, nothing more and `nil`; on a node that needs a reboot,
`Sync` then `Reboot`, whose result is returned. -/
theorem C11_processNodeState_plan {σ : Type} (n : nodeTerminationHandler σ) (s : σ) :
    (n.currentNodeState.PendingTermination = false →
      n.processNodeState s
        = ((n.taintHandler.RemoveTaint s).1,
           [Action.removeTaint (n.taintHandler.RemoveTaint s).2],
           (n.taintHandler.RemoveTaint s).2)) ∧
    (n.currentNodeState.PendingTermination = true →
      (∀ err, (n.taintHandler.ApplyTaint s).2 = some err →
        n.processNodeState s
          = ((n.taintHandler.ApplyTaint s).1, [Action.applyTaint (some err)], some err)) ∧
      ((n.taintHandler.ApplyTaint s).2 = none →
        (∀ err,
          (n.podEvictionHandler.EvictPods n.excludePods
            (evictionTimeout n.currentNodeState.TerminationTime (n.system.Now s))
            (n.taintHandler.ApplyTaint s).1).2 = some err →
          n.processNodeState s
            = ((n.podEvictionHandler.EvictPods n.excludePods
                  (evictionTimeout n.currentNodeState.TerminationTime (n.system.Now s))
                  (n.taintHandler.ApplyTaint s).1).1,
               [Action.applyTaint none,
                Action.evictPods n.excludePods
                  (evictionTimeout n.currentNodeState.TerminationTime (n.system.Now s))
                  (some err)],
               some err)) ∧
        ((n.podEvictionHandler.EvictPods n.excludePods
            (evictionTimeout n.currentNodeState.TerminationTime (n.system.Now s))
            (n.taintHandler.ApplyTaint s).1).2 = none →
          (n.currentNodeState.NeedsReboot = false →
            n.processNodeState s
              = ((n.podEvictionHandler.EvictPods n.excludePods
                    (evictionTimeout n.currentNodeState.TerminationTime (n.system.Now s))
                    (n.taintHandler.ApplyTaint s).1).1,
                 [Action.applyTaint none,
                  Action.evictPods n.excludePods
                    (evictionTimeout n.currentNodeState.TerminationTime (n.system.Now s))
                    none],
                 none)) ∧
          (n.currentNodeState.NeedsReboot = true →
            n.processNodeState s
              = ((n.system.Reboot (n.system.Sync
                    (n.podEvictionHandler.EvictPods n.excludePods
                      (evictionTimeout n.currentNodeState.TerminationTime (n.system.Now s))
                      (n.taintHandler.ApplyTaint s).1).1)).1,
                 [Action.applyTaint none,
                  Action.evictPods n.excludePods
                    (evictionTimeout n.currentNodeState.TerminationTime (n.system.Now s))
                    none,
                  Action.sync,
                  Action.reboot (n.system.Reboot (n.system.Sync
                    (n.podEvictionHandler.EvictPods n.excludePods
                      (evictionTimeout n.currentNodeState.TerminationTime (n.system.Now s))
                      (n.taintHandler.ApplyTaint s).1).1)).2],
                 (n.system.Reboot (n.system.Sync
                    (n.podEvictionHandler.EvictPods n.excludePods
                      (evictionTimeout n.currentNodeState.TerminationTime (n.system.Now s))
                      (n.taintHandler.ApplyTaint s).1).1)).2))))) := by
  refine ⟨fun hp => ?_, fun hp => ⟨fun err ha => ?_, fun ha => ⟨fun err he => ?_,
    fun he => ⟨fun hr => ?_, fun hr => ?_⟩⟩⟩⟩
  · unfold nodeTerminationHandler.processNodeState
    simp [hp]
  · unfold nodeTerminationHandler.processNodeState
    rcases hA : n.taintHandler.ApplyTaint s with ⟨s1, ra⟩
    rw [hA] at ha
    simp only at ha
    subst ha
    simp [hp]
  · rcases hA : n.taintHandler.ApplyTaint s with ⟨s1, ra⟩
    rw [hA] at ha he
    simp only at ha he
    subst ha
    rcases hE : n.podEvictionHandler.EvictPods n.excludePods
      (evictionTimeout n.currentNodeState.TerminationTime (n.system.Now s)) s1 with ⟨s2, re⟩
    rw [hE] at he
    simp only at he
    subst he
    unfold nodeTerminationHandler.processNodeState
    simp [hp, hA, hE]
  · rcases hA : n.taintHandler.ApplyTaint s with ⟨s1, ra⟩
    rw [hA] at ha he
    simp only at ha he
    subst ha
    rcases hE : n.podEvictionHandler.EvictPods n.excludePods
      (evictionTimeout n.currentNodeState.TerminationTime (n.system.Now s)) s1 with ⟨s2, re⟩
    rw [hE] at he
    simp only at he
    subst he
    unfold nodeTerminationHandler.processNodeState
    simp [hp, hr, hA, hE]
  · rcases hA : n.taintHandler.ApplyTaint s with ⟨s1, ra⟩
    rw [hA] at ha he
    simp only at ha he
    subst ha
    rcases hE : n.podEvictionHandler.EvictPods n.excludePods
      (evictionTimeout n.currentNodeState.TerminationTime (n.system.Now s)) s1 with ⟨s2, re⟩
    rw [hE] at he
    simp only at he
    subst he
    unfold nodeTerminationHandler.processNodeState
    simp [hp, hr, hA, hE, nodeTerminationHandler.rebootNode]

/-- C11 on the example world: with a pending termination and a failing
`ApplyTaint` nothing follows the failed apply; with a failing `EvictPods` on a
regular node no reboot follows; and without a pending termination only
`RemoveTaint` runs. -/
theorem C11_witness :
    ((exampleHandler (regularState true (3600 * Second)) []).processNodeState
        { clock := 0, failing := some "apply" })
      = ({ clock := 0, failing := some "apply" },
         [Action.applyTaint (some "apply failed")], some "apply failed") ∧
    ((exampleHandler (regularState true (3600 * Second)) []).processNodeState
        { clock := 0, failing := some "evict" })
      = ({ clock := 0, failing := some "evict" },
         [Action.applyTaint none,
          Action.evictPods testExclude (evictionTimeout (timeAt (3600 * Second)) (timeAt 0))
            (some "evict failed")],
         some "evict failed") ∧
    ((exampleHandler (regularState false 0) []).processNodeState
        { clock := 0, failing := none })
      = ({ clock := 0, failing := none }, [Action.removeTaint none], none) :=
  ⟨((C11_processNodeState_plan (exampleHandler (regularState true (3600 * Second)) [])
        { clock := 0, failing := some "apply" }).2 (by decide)).1 "apply failed" (by decide),
    (((C11_processNodeState_plan (exampleHandler (regularState true (3600 * Second)) [])
        { clock := 0, failing := some "evict" }).2 (by decide)).2 (by decide)).1
      "evict failed" (by decide),
    (C11_processNodeState_plan (exampleHandler (regularState false 0) [])
        { clock := 0, failing := none }).1 (by decide)⟩

/-- C12, as stated, fails: when the termination time is more than the largest
`time.Duration` after the current time (here by 200 s), `Time.Sub` returns the
largest duration and the timeout passed to `EvictPods` is that duration less
60 s, not `termination_time - now - 60 s`. -/
theorem C12_counterexample :
    (maxInt64 + 200 * Second) - 0 ≥ 120 * Second ∧
    ((exampleHandler (regularState true (maxInt64 + 200 * Second)) []).processNodeState
        { clock := 0, failing := none }).2.1
      = [Action.applyTaint none, Action.evictPods testExclude (maxInt64 - 60 * Second) none,
         Action.sync, Action.reboot none] ∧
    maxInt64 - 60 * Second ≠ (maxInt64 + 200 * Second) - 0 - 60 * Second :=
  ⟨by decide, by rw [exampleHandler_saturated], by decide⟩

/-- C12, amended: when `d = termination_time - now` is in the range of
`time.Duration`, the timeout that `processNodeState` computes, and passes to
`EvictPods` whenever it calls it, is `d - 60 s` when `d ≥ 120 s` and `d` when
`d < 120 s`. -/
theorem C12_eviction_timeout (terminationTime now : Time)
    (h1 : minInt64 ≤ terminationTime.instant - now.instant)
    (h2 : terminationTime.instant - now.instant ≤ maxInt64) :
    evictionTimeout terminationTime now
      = (if terminationTime.instant - now.instant ≥ 120 * Second then
           terminationTime.instant - now.instant - 60 * Second
         else terminationTime.instant - now.instant) ∧
    (∀ {σ : Type} (n : nodeTerminationHandler σ) (s : σ),
      n.currentNodeState.TerminationTime = terminationTime → n.system.Now s = now →
      ∀ ex t r, Action.evictPods ex t r ∈ (n.processNodeState s).2.1 →
        t = (if terminationTime.instant - now.instant ≥ 120 * Second then
               terminationTime.instant - now.instant - 60 * Second
             else terminationTime.instant - now.instant)) := by
  have hval : evictionTimeout terminationTime now
      = (if terminationTime.instant - now.instant ≥ 120 * Second then
           terminationTime.instant - now.instant - 60 * Second
         else terminationTime.instant - now.instant) := by
    rw [evictionTimeout_eq]
    unfold Time.Sub
    rw [TimeSub_of_range terminationTime.instant now.instant h1 h2]
  refine ⟨hval, ?_⟩
  intro σ n s htt hnow ex t r hmem
  rw [← hval, ← htt, ← hnow]
  exact (processNodeState_evictPods n s ex t r hmem).2

/-- C12, amended, on a deadline of one hour (timeout 59 minutes) and on a
deadline of 30 seconds (timeout 30 seconds). -/
theorem C12_witness :
    (evictionTimeout (timeAt (3600 * Second)) (timeAt 0) = 59 * Minute ∧
      ((exampleHandler (regularState true (3600 * Second)) []).processNodeState
          { clock := 0, failing := none }).2.1
        = [Action.applyTaint none, Action.evictPods testExclude (3540 * Second) none,
           Action.sync, Action.reboot none]) ∧
    (evictionTimeout (timeAt (30 * Second)) (timeAt 0) = 30 * Second ∧
      ((exampleHandler (preemptibleState true (30 * Second)) []).processNodeState
          { clock := 0, failing := none }).2.1
        = [Action.applyTaint none, Action.evictPods testExclude (30 * Second) none]) :=
  ⟨⟨(C12_eviction_timeout (timeAt (3600 * Second)) (timeAt 0) (by decide)
        (by decide)).1.trans (by decide),
      by rw [exampleHandler_regular_hour]⟩,
    ⟨(C12_eviction_timeout (timeAt (30 * Second)) (timeAt 0) (by decide)
        (by decide)).1.trans (by decide),
      by rw [exampleHandler_preemptible_30]⟩⟩

/-- C13: on the default value of the flag `--exclude-pods`, the empty string,
`processExcludePods` returns the error "Invalid value specified for
--exclude-pods flag - " and no map: `strings.Split("", ",")` has one element,
the empty string, and splitting it at `:` gives one part, not two. -/
theorem C13_empty_flag_is_rejected :
    Split excludePodsDefault ',' = [""] ∧
    Split "" ':' = [""] ∧
    processExcludePods excludePodsDefault
      = Except.error "Invalid value specified for --exclude-pods flag - " ∧
    parseSucceeded (processExcludePods excludePodsDefault) = false :=
  ⟨by decide, by decide, rfl, by decide⟩

/-- C14: `storePendingTermination` at time `now` sets `PendingTermination` to
true and `TerminationTime` to `now + 30 s` on a preemptible instance
(`NeedsReboot = false`) and to `now + regularNodeTerminationDuration`
otherwise; `resetPendingTermination` at time `now` sets `PendingTermination` to
false and `TerminationTime` to `now`; both leave `NodeName` and `NeedsReboot`
(and the configured timeout) unchanged. -/
theorem C14_store_and_reset (g : gceTerminationSource) (now : Time) :
    ((g.storePendingTermination now).state.PendingTermination = true ∧
      (g.storePendingTermination now).state.TerminationTime
        = (if g.state.NeedsReboot = false then now.Add (30 * Second)
           else now.Add g.regularNodeTerminationDuration) ∧
      (g.storePendingTermination now).state.TerminationTime.instant
        = (if g.state.NeedsReboot = false then now.instant + 30 * Second
           else now.instant + g.regularNodeTerminationDuration) ∧
      (g.storePendingTermination now).state.NodeName = g.state.NodeName ∧
      (g.storePendingTermination now).state.NeedsReboot = g.state.NeedsReboot ∧
      (g.storePendingTermination now).regularNodeTerminationDuration
        = g.regularNodeTerminationDuration) ∧
    ((g.resetPendingTermination now).state.PendingTermination = false ∧
      (g.resetPendingTermination now).state.TerminationTime = now ∧
      (g.resetPendingTermination now).state.NodeName = g.state.NodeName ∧
      (g.resetPendingTermination now).state.NeedsReboot = g.state.NeedsReboot ∧
      (g.resetPendingTermination now).regularNodeTerminationDuration
        = g.regularNodeTerminationDuration) := by
  constructor
  · unfold gceTerminationSource.storePendingTermination
    cases h : g.state.NeedsReboot <;>
      simp [h, preemptibleNodeTerminationDuration, Time.Add]
  · simp [gceTerminationSource.resetPendingTermination]

/-- C15: in the loop of `Start`, a snapshot that `reflect.DeepEqual` finds equal
to `currentNodeState` leads to no action and leaves the handler and the world
as they are, and the loop goes on with the next snapshot as if this one had not
been received.  A snapshot that differs in any field becomes
`currentNodeState`, and `processNodeState` is run on it (its actions, at least
one, open the trace; when it returns `nil` at once nothing else happens, and
otherwise retries follow, whose only error is `ErrWaitTimeout`); an error ends
the loop, and otherwise the loop goes on with the next snapshot, which is
compared with the snapshot just recorded.  The loop ends when the channel is
closed, and `Start` runs it on the snapshots of `WatchState` from the state
recorded from `GetState`, after the plan for that state.  In particular the
current state received any number of times in a row changes nothing. -/
theorem C15_equal_snapshot_is_skipped {σ : Type} (n : nodeTerminationHandler σ)
    (state : NodeTerminationState) (rest : List NodeTerminationState) (s : σ) :
    (state = n.currentNodeState →
      n.handleUpdate state s = (n, s, [], none) ∧
      n.watchLoop (state :: rest) s = n.watchLoop rest s) ∧
    (state ≠ n.currentNodeState →
      (n.handleUpdate state s).1 = { n with currentNodeState := state } ∧
      (({ n with currentNodeState := state }).processNodeState s).2.1 ≠ [] ∧
      (∃ more, (n.handleUpdate state s).2.2.1
        = (({ n with currentNodeState := state }).processNodeState s).2.1 ++ more) ∧
      ((({ n with currentNodeState := state }).processNodeState s).2.2 = none →
        n.handleUpdate state s
          = ({ n with currentNodeState := state },
             (({ n with currentNodeState := state }).processNodeState s).1,
             (({ n with currentNodeState := state }).processNodeState s).2.1, none)) ∧
      ((n.handleUpdate state s).2.2.2 = none ∨
        (n.handleUpdate state s).2.2.2 = some ErrWaitTimeout) ∧
      (∀ err, (n.handleUpdate state s).2.2.2 = some err →
        n.watchLoop (state :: rest) s = n.handleUpdate state s) ∧
      ((n.handleUpdate state s).2.2.2 = none →
        n.watchLoop (state :: rest) s
          = ((({ n with currentNodeState := state }).watchLoop rest
                (n.handleUpdate state s).2.1).1,
             (({ n with currentNodeState := state }).watchLoop rest
                (n.handleUpdate state s).2.1).2.1,
             (n.handleUpdate state s).2.2.1 ++
               (({ n with currentNodeState := state }).watchLoop rest
                  (n.handleUpdate state s).2.1).2.2.1,
             (({ n with currentNodeState := state }).watchLoop rest
                (n.handleUpdate state s).2.1).2.2.2))) ∧
    n.watchLoop [] s = (n, s, [], none) ∧
    (∀ err,
      (({ n with currentNodeState := n.terminationSource.GetState }).processNodeState s).2.2
        = some err →
      n.Start s
        = ({ n with currentNodeState := n.terminationSource.GetState },
           (({ n with currentNodeState := n.terminationSource.GetState }).processNodeState s).1,
           (({ n with currentNodeState := n.terminationSource.GetState }).processNodeState s).2.1,
           some err)) ∧
    ((({ n with currentNodeState := n.terminationSource.GetState }).processNodeState s).2.2
        = none →
      n.Start s
        = ((({ n with currentNodeState := n.terminationSource.GetState }).watchLoop
              n.terminationSource.WatchState
              (({ n with currentNodeState :=
                    n.terminationSource.GetState }).processNodeState s).1).1,
           (({ n with currentNodeState := n.terminationSource.GetState }).watchLoop
              n.terminationSource.WatchState
              (({ n with currentNodeState :=
                    n.terminationSource.GetState }).processNodeState s).1).2.1,
           (({ n with currentNodeState := n.terminationSource.GetState }).processNodeState
              s).2.1 ++
             (({ n with currentNodeState := n.terminationSource.GetState }).watchLoop
                n.terminationSource.WatchState
                (({ n with currentNodeState :=
                      n.terminationSource.GetState }).processNodeState s).1).2.2.1,
           (({ n with currentNodeState := n.terminationSource.GetState }).watchLoop
              n.terminationSource.WatchState
              (({ n with currentNodeState :=
                    n.terminationSource.GetState }).processNodeState s).1).2.2.2)) ∧
    (∀ k, n.watchLoop (List.replicate k n.currentNodeState) s = (n, s, [], none)) := by
  have key : ∀ p : σ × List Action × Option Error,
      (match p with
        | (s1, tr, some _) => ((s1, tr, false, none) : σ × List Action × Bool × Option Error)
        | (s1, tr, none) => (s1, tr, true, none)).2.1 = p.2.1 := by
    rintro ⟨s1, tr, res⟩
    cases res <;> rfl
  refine ⟨?_, ?_, rfl, ?_, ?_, ?_⟩
  · intro h
    subst h
    refine ⟨handleUpdate_same n s, ?_⟩
    rw [nodeTerminationHandler.watchLoop, handleUpdate_same]
    simp only
    rcases n.watchLoop rest s with ⟨n2, s2, tr2, res⟩
    simp
  · intro h
    have hh := handleUpdate_handler n state s h
    refine ⟨hh, processNodeState_ne_nil _ s, ?_, ?_, ?_, ?_, ?_⟩
    · unfold nodeTerminationHandler.handleUpdate
      rw [if_pos h]
      obtain ⟨more, hmore⟩ := ExponentialBackoff_first n.system.Sleep (fun s =>
        match ({ n with currentNodeState := state }).processNodeState s with
        | (s1, tr, some _) => (s1, tr, false, none)
        | (s1, tr, none) => (s1, tr, true, none)) 9 s
      refine ⟨more, ?_⟩
      simp only at hmore ⊢
      rw [hmore]
      exact congrArg (fun l => l ++ more) (key _)
    · intro hnil
      unfold nodeTerminationHandler.handleUpdate
      rw [if_pos h]
      have hdone := ExponentialBackoff_done n.system.Sleep (fun s =>
        match ({ n with currentNodeState := state }).processNodeState s with
        | (s1, tr, some _) => (s1, tr, false, none)
        | (s1, tr, none) => (s1, tr, true, none)) 9 s (by
          rcases hp : ({ n with currentNodeState := state }).processNodeState s
            with ⟨s1, tr, res⟩
          rw [hp] at hnil
          simp only at hnil
          subst hnil
          beta_reduce
          rw [hp])
      rw [hdone]
      rcases hp : ({ n with currentNodeState := state }).processNodeState s with ⟨s1, tr, res⟩
      rw [hp] at hnil
      simp only at hnil
      subst hnil
      beta_reduce
      rw [hp]
    · unfold nodeTerminationHandler.handleUpdate
      rw [if_pos h]
      exact ExponentialBackoff_error n.system.Sleep _ (by
        intro s'
        rcases hp : ({ n with currentNodeState := state }).processNodeState s'
          with ⟨s1, tr, res⟩
        rw [hp]
        cases res <;> rfl) 10 0 s
    · intro err herr
      rw [nodeTerminationHandler.watchLoop]
      rcases hu : n.handleUpdate state s with ⟨n1, s1, tr, res⟩
      rw [hu] at herr
      simp only at herr
      subst herr
      rfl
    · intro hnone
      rw [nodeTerminationHandler.watchLoop]
      rcases hu : n.handleUpdate state s with ⟨n1, s1, tr, res⟩
      rw [hu] at hnone hh
      simp only at hnone hh
      subst hnone
      subst hh
      rfl
  · intro err herr
    unfold nodeTerminationHandler.Start
    rcases hp : ({ n with currentNodeState := n.terminationSource.GetState }).processNodeState s
      with ⟨s1, tr, res⟩
    rw [hp] at herr
    simp only at herr
    subst herr
    rw [hp]
  · intro hnone
    unfold nodeTerminationHandler.Start
    rcases hp : ({ n with currentNodeState := n.terminationSource.GetState }).processNodeState s
      with ⟨s1, tr, res⟩
    rw [hp] at hnone
    simp only at hnone
    subst hnone
    rw [hp]
  · intro k
    induction k with
    | zero => rfl
    | succ k ih =>
      rw [List.replicate_succ]
      unfold nodeTerminationHandler.watchLoop
      rw [handleUpdate_same]
      simp only
      rw [ih]
      rfl

/-- C15 on the example world: a snapshot equal to the current state is skipped
and the loop goes on with the next one; a snapshot that differs only in its
termination time is recorded and its plan (here `RemoveTaint`) is run, and the
loop goes on from the recorded snapshot.  Of the four snapshots below the first
and the third are skipped; the fourth carries the same instant as the third in
another representation of the time, and is acted upon. -/
theorem C15_witness :
    (exampleHandler (regularState false 0) []).watchLoop
        [regularState false 0, regularState false 5] { clock := 0, failing := none }
      = (exampleHandler (regularState false 0) []).watchLoop
          [regularState false 5] { clock := 0, failing := none } ∧
    ((exampleHandler (regularState false 0) []).handleUpdate (regularState false 5)
        { clock := 0, failing := none }).1
      = { exampleHandler (regularState false 0) [] with
          currentNodeState := regularState false 5 } ∧
    ((exampleHandler (regularState false 0) []).handleUpdate (regularState false 5)
        { clock := 0, failing := none }).2
      = ({ clock := 0, failing := none }, [Action.removeTaint none], none) ∧
    (exampleHandler (regularState false 0) []).watchLoop
        [regularState false 5, regularState false 5]
        { clock := 0, failing := none }
      = ((({ exampleHandler (regularState false 0) [] with
              currentNodeState := regularState false 5 }).watchLoop [regularState false 5]
            ((exampleHandler (regularState false 0) []).handleUpdate (regularState false 5)
              { clock := 0, failing := none }).2.1).1,
         (({ exampleHandler (regularState false 0) [] with
              currentNodeState := regularState false 5 }).watchLoop [regularState false 5]
            ((exampleHandler (regularState false 0) []).handleUpdate (regularState false 5)
              { clock := 0, failing := none }).2.1).2.1,
         ((exampleHandler (regularState false 0) []).handleUpdate (regularState false 5)
            { clock := 0, failing := none }).2.2.1 ++
           (({ exampleHandler (regularState false 0) [] with
                currentNodeState := regularState false 5 }).watchLoop [regularState false 5]
              ((exampleHandler (regularState false 0) []).handleUpdate (regularState false 5)
                { clock := 0, failing := none }).2.1).2.2.1,
         (({ exampleHandler (regularState false 0) [] with
              currentNodeState := regularState false 5 }).watchLoop [regularState false 5]
            ((exampleHandler (regularState false 0) []).handleUpdate (regularState false 5)
              { clock := 0, failing := none }).2.1).2.2.2) ∧
    ((exampleHandler (regularState false 0) []).watchLoop
        [regularState false 0, regularState false 5, regularState false 5,
         otherRepresentation (regularState false 5)]
        { clock := 0, failing := none }).2
      = ({ clock := 0, failing := none },
         [Action.removeTaint none, Action.removeTaint none], none) ∧
    ((exampleHandler (regularState false 0) []).watchLoop
        [regularState false 0, regularState false 5, regularState false 5,
         otherRepresentation (regularState false 5)]
        { clock := 0, failing := none }).1.currentNodeState
      = otherRepresentation (regularState false 5) ∧
    (otherRepresentation (regularState false 5)).TerminationTime.instant
      = (regularState false 5).TerminationTime.instant :=
  ⟨((C15_equal_snapshot_is_skipped (exampleHandler (regularState false 0) [])
      (regularState false 0) [regularState false 5] { clock := 0, failing := none }).1 rfl).2,
    ((C15_equal_snapshot_is_skipped (exampleHandler (regularState false 0) [])
      (regularState false 5) [regularState false 5]
      { clock := 0, failing := none }).2.1 (by decide)).1,
    by decide,
    ((C15_equal_snapshot_is_skipped (exampleHandler (regularState false 0) [])
      (regularState false 5) [regularState false 5]
      { clock := 0, failing := none }).2.1 (by decide)).2.2.2.2.2.2 (by decide),
    by decide, by decide, by decide⟩

/-- C16, as stated, fails: the flag value `foo:a,foo:b` lists the pods `foo` in
namespace `a` and `foo` in namespace `b`; the map built from it has the single
entry `foo -> b`, so `(foo, a)` is not in the exclude set, and `EvictPods`
deletes the pod `foo` of namespace `a`. -/
theorem C16_counterexample :
    renderFlag [("foo", "a"), ("foo", "b")] = "foo:a,foo:b" ∧
    processExcludePods "foo:a,foo:b" = Except.ok [("foo", "b")] ∧
    List.lookup "foo" [("foo", "b")] ≠ some "a" ∧
    deletedPods ((testHandler (1 * Second)).EvictPods 1 [("foo", "b")] (30 * Second)
        sameNamePods).2.1 = [("foo", "a")] :=
  ⟨by decide, rfl, by decide, by rw [sameName_evicts]; decide⟩

/-- C16, amended: for a flag value that is a comma-separated list of
well-formed `name:namespace` tuples, `processExcludePods` succeeds, and every
listed `(name, namespace)` whose name is not listed again later in the flag is
an entry of the map it returns; `EvictPods` with that map issues no delete
request for that pod. -/
theorem C16_listed_pod_is_excluded (pre post : List (String × String)) (name ns : String)
    (hwf : ∀ p ∈ pre ++ (name, ns) :: post, wellFormed p)
    (hlast : ∀ p ∈ post, p.1 ≠ name) :
    ∃ m, processExcludePods (renderFlag (pre ++ (name, ns) :: post)) = Except.ok m ∧
      m.lookup name = some ns ∧
      ∀ {σ : Type} (p : podEvictionHandler σ) (fuel : Nat) (timeout : Int) (s : σ),
        (name, ns) ∉ deletedPods (p.EvictPods fuel m timeout s).2.1 := by
  refine ⟨assignAll [] (pre ++ (name, ns) :: post), ?_, lookup_assignAll_last pre post name ns hlast,
    ?_⟩
  · unfold processExcludePods
    rw [Split_renderFlag _ (by simp) hwf, processExcludePodsLoop_rendered _ _ _ hwf]
  · intro σ p fuel timeout s hmem
    unfold deletedPods at hmem
    obtain ⟨r, hr, hid⟩ := List.mem_map.1 hmem
    have hne := EvictPods_requests_not_excluded p fuel _ timeout s r hr
    simp only [Prod.mk.injEq] at hid
    rw [hid.1, hid.2] at hne
    exact hne (lookup_assignAll_last pre post name ns hlast)

/-- C16, amended, on the flag value `baz:kube-system,foo:a`: both listed pods
are entries of the map. -/
theorem C16_witness :
    renderFlag ([] ++ ("baz", "kube-system") :: [("foo", "a")]) = "baz:kube-system,foo:a" ∧
    processExcludePods "baz:kube-system,foo:a"
      = Except.ok [("baz", "kube-system"), ("foo", "a")] ∧
    (∃ m, processExcludePods (renderFlag ([] ++ ("baz", "kube-system") :: [("foo", "a")]))
        = Except.ok m ∧
      m.lookup "baz" = some "kube-system" ∧
      ∀ {σ : Type} (p : podEvictionHandler σ) (fuel : Nat) (timeout : Int) (s : σ),
        ("baz", "kube-system") ∉ deletedPods (p.EvictPods fuel m timeout s).2.1) :=
  ⟨by decide, rfl,
    C16_listed_pod_is_excluded [] [("foo", "a")] "baz" "kube-system"
      (by
        intro p hp
        simp only [List.nil_append, List.mem_cons, List.mem_singleton, List.not_mem_nil,
          or_false] at hp
        rcases hp with rfl | rfl <;> (unfold wellFormed; decide))
      (by
        intro p hp
        simp only [List.mem_singleton] at hp
        subst hp
        decide)⟩

/-- C17: `addOrUpdateTaint` equals the reference: on a node whose taints contain
the configured taint it returns the node unchanged with `updated = false` (and
`ApplyTaint` with the taint backend then only reads the node: no write, no
event); otherwise `updated = true` and every taint with the configured key and
effect is replaced in place by the configured taint, the other taints are kept
in their order, and the configured taint is appended exactly when no taint had
its key and effect. -/
theorem C17_addOrUpdateTaint_reference (node : Node) (t : Taint) :
    addOrUpdateTaint node t
      = ({ node with Taints := (addOrUpdateTaintReference node.Taints t).1 },
         (addOrUpdateTaintReference node.Taints t).2) ∧
    (t ∈ node.Taints →
      addOrUpdateTaint node t = (node, false) ∧
      ∀ {σ : Type} (n : nodeTaintHandler σ) (s s1 : σ), n.annotation = "" → n.taint = t →
        n.client.Get s n.node = (s1, Except.ok node) →
        n.ApplyTaint s = (s1, [NodeCall.get n.node], Outcome.returned none)) := by
  have hfun : (fun x : Taint => if t.MatchTaint x = true then t else x)
      = (fun x : Taint => if x.Key = t.Key ∧ x.Effect = t.Effect then t else x) := by
    funext x
    by_cases h : x.Key = t.Key ∧ x.Effect = t.Effect
    · rw [if_pos h, if_pos ((MatchTaint_iff t x).2 h)]
    · rw [if_neg h, if_neg (fun hm => h ((MatchTaint_iff t x).1 hm))]
  have hany : (node.Taints.any (fun x => t.MatchTaint x) = true)
      ↔ ∃ x ∈ node.Taints, x.Key = t.Key ∧ x.Effect = t.Effect := by
    rw [List.any_eq_true]
    constructor
    · rintro ⟨x, hx, hm⟩
      exact ⟨x, hx, (MatchTaint_iff t x).1 hm⟩
    · rintro ⟨x, hx, hm⟩
      exact ⟨x, hx, (MatchTaint_iff t x).2 hm⟩
  constructor
  · unfold addOrUpdateTaintReference
    by_cases h : t ∈ node.Taints
    · rw [addOrUpdateTaint_mem node t h, if_pos h]
    · rw [addOrUpdateTaint_not_mem node t h, if_neg h, hfun]
      by_cases he : ∃ x ∈ node.Taints, x.Key = t.Key ∧ x.Effect = t.Effect
      · rw [if_pos (hany.2 he), if_pos he, List.append_nil]
      · rw [if_neg (fun ha => he (hany.1 ha)), if_neg he]
  · intro h
    refine ⟨addOrUpdateTaint_mem node t h, ?_⟩
    intro σ n s s1 hann ht hget
    unfold nodeTaintHandler.ApplyTaint
    rw [hget]
    simp only [hann, ht, addOrUpdateTaint_mem node t h]
    simp

/-- C17 on a node that carries a stale taint with the configured key and
effect and a taint with another key: the stale taint is replaced in place and
nothing is appended; and on a node that carries the configured taint, nothing
changes. -/
theorem C17_witness :
    addOrUpdateTaint (exampleNode none [staleTaint, otherTaint]) exampleTaint
      = (exampleNode none [exampleTaint, otherTaint], true) ∧
    addOrUpdateTaint (exampleNode none [otherTaint]) exampleTaint
      = (exampleNode none [otherTaint, exampleTaint], true) ∧
    addOrUpdateTaint (exampleNode none [otherTaint, exampleTaint]) exampleTaint
      = (exampleNode none [otherTaint, exampleTaint], false) :=
  ⟨(C17_addOrUpdateTaint_reference (exampleNode none [staleTaint, otherTaint])
      exampleTaint).1.trans (by decide),
    (C17_addOrUpdateTaint_reference (exampleNode none [otherTaint]) exampleTaint).1.trans
      (by decide),
    ((C17_addOrUpdateTaint_reference (exampleNode none [otherTaint, exampleTaint])
      exampleTaint).2 (by decide)).1⟩

end Termination
